import Mathlib

/-!
# Subspace: address allocation and free-id search

A shallow embedding of `cmd/subspace/helpers.go` (`FindFirstFreeID`,
`getProfileIDs`) and `cmd/subspace/net.go` (`cloneIP`, `calcDefaultGateway`,
`generateIPAddr`), together with the parts of Go's `net` package these
functions call, and theorems about them.

Conventions: a Go `int` is an `Int`, a `byte` is a `Nat` reduced `% 256` at
every addition, a `uint32` is a `Nat` reduced `% 2 ^ 32` at every conversion.
A Go run-time panic (index out of range) is an explicit result.
-/

namespace Subspace

/-! ## Free-id finder (`helpers.go`) -/

/-- The part of the `Profile` record that `getProfileIDs` reads: its `Number`. -/
structure Profile where
  Number : Int
deriving Repr, DecidableEq

/-- Embedding of `getProfileIDs`: the `Number` of every profile, in order. -/
def getProfileIDs (profiles : List Profile) : List Int :=
  profiles.map (fun profile => profile.Number)

/-- Embedding of `sort.Slice(profileIDs, func(i, j) { profileIDs[i] < profileIDs[j] })`:
the ascending rearrangement of the slice (unique for integers). -/
def sortSlice (profileIDs : List Int) : List Int :=
  profileIDs.insertionSort (fun a b => a ≤ b)

/-- Embedding of the conversion `uint32(x)` of a Go `int`. -/
def toUint32 (x : Int) : Nat :=
  (x % 2 ^ 32).toNat

/-- Embedding of the scan
`for i := minID; i < maxID; i++ { if i != profileIDs[i-minID] { freeID = uint32(i); break } }`
started at `i` with the current `freeID`. The result is the final `freeID`, or
`none` when the read `profileIDs[i-minID]` is out of range (a Go panic). -/
def scanLoop (profileIDs : List Int) (maxID : Int) (i : Int) (freeID : Nat) : Option Nat :=
  if i < maxID then
    if 0 ≤ i - 2 then
      match profileIDs[(i - 2).toNat]? with
      | none => none
      | some v => if i ≠ v then some (toUint32 i) else scanLoop profileIDs maxID (i + 1) freeID
    else none
  else some freeID
termination_by (maxID - i).toNat
decreasing_by omega

/-- Embedding of `FindFirstFreeID` after `getProfileIDs`, on the list of profile
numbers. `none` is a Go panic. -/
def FindFirstFreeIDOfIDs (ids : List Int) : Option Nat :=
  let profileIDs := sortSlice ids
  match profileIDs.getLast? with
  | none => some 2
  | some maxID => scanLoop profileIDs maxID 2 (toUint32 (maxID + 1))

/-- Embedding of `FindFirstFreeID`. -/
def FindFirstFreeID (profiles : List Profile) : Option Nat :=
  FindFirstFreeIDOfIDs (getProfileIDs profiles)

/-! ## Go's `net` package, as far as `net.go` uses it

The functions below follow the Go standard library (`net/ip.go`). A `net.IP` and a
`net.IPMask` are byte slices; the `nil` slice is the empty list. -/

/-- A `net.IP`: a slice of bytes. -/
abbrev IP := List Nat

/-- A `net.IPMask`: a slice of bytes. -/
abbrev IPMask := List Nat

/-- A `net.IPNet`: a network number and its mask. -/
structure IPNet where
  IP : List Nat
  Mask : List Nat
deriving Repr, DecidableEq

/-- The errors `net.go` returns. -/
inductive GoError where
  /-- the error of `net.ParseCIDR` -/
  | parseError
  /-- the error `given CIDR (%s) doet not represent a network` -/
  | notANetwork
  /-- the error `kErrIPLimitExceeds` -/
  | kErrIPLimitExceeds
deriving Repr, DecidableEq

/-- What a Go function with an `error` result does: it returns values with a `nil`
error, returns an error, or panics at run time. -/
inductive Result (α : Type) where
  | ok (a : α)
  | err (e : GoError)
  | panic
deriving Repr, DecidableEq

/-- Every entry of the slice is a byte. -/
def isBytes (p : List Nat) : Prop := ∀ b ∈ p, b < 256

instance (p : List Nat) : Decidable (isBytes p) := by unfold isBytes; infer_instance

/-- The 12-byte prefix `v4InV6Prefix` of an IPv4-mapped IPv6 address. -/
def v4InV6Prefix : IP := [0, 0, 0, 0, 0, 0, 0, 0, 0, 0, 0xff, 0xff]

/-- Embedding of `net.IPv4(a, b, c, d)`: the 16-byte form of an IPv4 address. -/
def IPv4 (a b c d : Nat) : IP := v4InV6Prefix ++ [a, b, c, d]

/-- The constant `net.IPv4bcast`. -/
def IPv4bcast : IP := IPv4 255 255 255 255

/-- The constant `net.IPv4zero`. -/
def IPv4zero : IP := IPv4 0 0 0 0

/-- The constant `net.IPv6unspecified`. -/
def IPv6unspecified : IP := [0, 0, 0, 0, 0, 0, 0, 0, 0, 0, 0, 0, 0, 0, 0, 0]

/-- The constant `net.IPv6loopback`. -/
def IPv6loopback : IP := [0, 0, 0, 0, 0, 0, 0, 0, 0, 0, 0, 0, 0, 0, 0, 1]

/-- Embedding of `isZeros`. -/
def isZeros (p : IP) : Bool := p.all (fun b => b == 0)

/-- Embedding of `allFF`. -/
def allFF (b : List Nat) : Bool := b.all (fun c => c == 0xff)

/-- Embedding of `IP.To4`; `none` is the `nil` result. -/
def To4 (ip : IP) : Option IP :=
  if ip.length = 4 then some ip
  else if ip.length = 16 ∧ isZeros (ip.take 10) = true ∧ ip.getD 10 0 = 0xff ∧
      ip.getD 11 0 = 0xff then some (ip.drop 12)
  else none

/-- Embedding of `IP.Equal`. -/
def Equal (ip x : IP) : Bool :=
  if ip.length = x.length then decide (ip = x)
  else if ip.length = 4 ∧ x.length = 16 then
    decide (x.take 12 = v4InV6Prefix) && decide (ip = x.drop 12)
  else if ip.length = 16 ∧ x.length = 4 then
    decide (ip.take 12 = v4InV6Prefix) && decide (ip.drop 12 = x)
  else false

/-- Embedding of `IP.Mask`; the `nil` result is `[]`. -/
def Mask (ip : IP) (mask : IPMask) : IP :=
  let mask1 := if mask.length = 16 ∧ ip.length = 4 ∧ allFF (mask.take 12) = true
    then mask.drop 12 else mask
  let ip1 := if mask1.length = 4 ∧ ip.length = 16 ∧ ip.take 12 = v4InV6Prefix
    then ip.drop 12 else ip
  let n := ip1.length
  if n ≠ mask1.length then []
  else (List.range n).map (fun i => ip1.getD i 0 &&& mask1.getD i 0)

/-- Embedding of `networkNumberAndMask`; the `nil, nil` result is `([], [])`. -/
def networkNumberAndMask (n : IPNet) : IP × IPMask :=
  match To4 n.IP with
  | some ip =>
    -- here `len(ip) == IPv4len`
    if n.Mask.length = 4 then (ip, n.Mask)
    else if n.Mask.length = 16 then (ip, n.Mask.drop 12)
    else ([], [])
  | none =>
    if n.IP.length ≠ 16 then ([], [])
    else if n.Mask.length = 4 then ([], [])
    else if n.Mask.length = 16 then (n.IP, n.Mask)
    else ([], [])

/-- Embedding of `IPNet.Contains`. -/
def Contains (n : IPNet) (ip : IP) : Bool :=
  let (nn, m) := networkNumberAndMask n
  let ip1 := match To4 ip with
    | some x => x
    | none => ip
  let l := ip1.length
  if l ≠ nn.length then false
  else (List.range l).all (fun i => nn.getD i 0 &&& m.getD i 0 == ip1.getD i 0 &&& m.getD i 0)

/-- Embedding of `IP.IsUnspecified`. -/
def IsUnspecified (ip : IP) : Bool := Equal ip IPv4zero || Equal ip IPv6unspecified

/-- Embedding of `IP.IsLoopback`. -/
def IsLoopback (ip : IP) : Bool :=
  match To4 ip with
  | some ip4 => ip4.getD 0 0 == 127
  | none => Equal ip IPv6loopback

/-- Embedding of `IP.IsMulticast`. -/
def IsMulticast (ip : IP) : Bool :=
  match To4 ip with
  | some ip4 => ip4.getD 0 0 &&& 0xf0 == 0xe0
  | none => decide (ip.length = 16) && ip.getD 0 0 == 0xff

/-- Embedding of `IP.IsLinkLocalUnicast`. -/
def IsLinkLocalUnicast (ip : IP) : Bool :=
  match To4 ip with
  | some ip4 => ip4.getD 0 0 == 169 && ip4.getD 1 0 == 254
  | none => decide (ip.length = 16) && ip.getD 0 0 == 0xfe && ip.getD 1 0 &&& 0xc0 == 0x80

/-- Embedding of `IP.IsGlobalUnicast`. -/
def IsGlobalUnicast (ip : IP) : Bool :=
  (decide (ip.length = 4) || decide (ip.length = 16)) &&
    !Equal ip IPv4bcast &&
    !IsUnspecified ip &&
    !IsLoopback ip &&
    !IsMulticast ip &&
    !IsLinkLocalUnicast ip

/-- Embedding of the loop `for v&0x80 != 0 { n++; v <<= 1 }` of `simpleMaskLength`:
the final `v` and `n`. -/
def countOnes (v : Nat) (n : Int) : Nat × Int :=
  if h : v &&& 0x80 ≠ 0 then countOnes ((v <<< 1) % 256) (n + 1) else (v, n)
termination_by v
decreasing_by
  have h128 : 128 ≤ v := by
    by_contra hlt
    have hv : v < 128 := by omega
    apply h
    interval_cases v <;> rfl
  rw [Nat.shiftLeft_eq]
  omega

/-- Embedding of the loop `for i, v := range mask` of `simpleMaskLength`, entered with
the count `n` at the bytes that remain. -/
def simpleMaskLengthFrom (n : Int) : List Nat → Int
  | [] => n
  | v :: rest =>
    if v = 0xff then simpleMaskLengthFrom (n + 8) rest
    else
      let r := countOnes v n
      if r.1 ≠ 0 then -1
      else if rest.any (fun b => b != 0) then -1
      else r.2

/-- Embedding of `simpleMaskLength`. -/
def simpleMaskLength (mask : IPMask) : Int := simpleMaskLengthFrom 0 mask

/-- Embedding of `IPMask.Size`: the pair `ones, bits`. -/
def Size (m : IPMask) : Int × Int :=
  let ones := simpleMaskLength m
  let bits := (m.length : Int) * 8
  if ones = -1 then (0, 0) else (ones, bits)

/-- Embedding of the loop of `CIDRMask` over the `l` bytes that remain, with `n` one
bits still to place. -/
def cidrMaskLoop : Nat → Nat → List Nat
  | 0, _ => []
  | l + 1, n =>
    if n ≥ 8 then 0xff :: cidrMaskLoop l (n - 8)
    else (255 - (0xff >>> n)) :: cidrMaskLoop l 0

/-- Embedding of `net.CIDRMask`; the `nil` result is `[]`. -/
def CIDRMask (ones bits : Int) : IPMask :=
  if bits ≠ 8 * 4 ∧ bits ≠ 8 * 16 then []
  else if ones < 0 ∨ ones > bits then []
  else cidrMaskLoop (bits / 8).toNat ones.toNat

/-- A `netip.Addr`: an IPv4 address (its 32-bit value) or an IPv6 address (its 128-bit
value and its zone). -/
inductive Addr where
  | ip4 (a : Nat)
  | ip6 (a : Nat) (zone : String)
deriving Repr, DecidableEq

/-- Embedding of `Addr.BitLen`. -/
def Addr.BitLen : Addr → Int
  | .ip4 _ => 32
  | .ip6 _ _ => 128

/-- Embedding of `Addr.Zone`. -/
def Addr.Zone : Addr → String
  | .ip4 _ => ""
  | .ip6 _ zone => zone

/-- The `n` bytes of `a`, most significant first. -/
def bigEndian (n : Nat) (a : Nat) : List Nat :=
  (List.range n).map (fun i => (a / 256 ^ (n - 1 - i)) % 256)

/-- Embedding of `Addr.As16`. -/
def Addr.As16 : Addr → IP
  | .ip4 a => v4InV6Prefix ++ bigEndian 4 a
  | .ip6 a _ => bigEndian 16 a

/-- Embedding of the loop of `dtoi` over the characters that remain, with the value `n`
and the index `i` so far: the triple `n, i, ok`. -/
def dtoiLoop : List Char → Nat → Nat → Nat × Nat × Bool
  | [], n, i => if i = 0 then (0, 0, false) else (n, i, true)
  | c :: cs, n, i =>
    if '0' ≤ c ∧ c ≤ '9' then
      let n1 := n * 10 + (c.toNat - '0'.toNat)
      if n1 ≥ 0xFFFFFF then (0xFFFFFF, i, false)
      else dtoiLoop cs n1 (i + 1)
    else if i = 0 then (0, 0, false) else (n, i, true)

/-- Embedding of `dtoi`. -/
def dtoi (s : List Char) : Nat × Nat × Bool := dtoiLoop s 0 0

/-- Embedding of `net.ParseCIDR`, over the address parser `netip.ParseAddr`, which is a
parameter. `none` is the parse error. -/
def ParseCIDR (ParseAddr : String → Option Addr) (s : String) : Option (IP × IPNet) :=
  match s.toList.span (fun c => c != '/') with
  | (_, []) => none
  | (addr, _ :: mask) =>
    match ParseAddr (String.mk addr) with
    | none => none
    | some ipAddr =>
      if ipAddr.Zone ≠ "" then none
      else
        let r := dtoi mask
        if !r.2.2 || r.2.1 ≠ mask.length || (r.1 : Int) < 0 || (r.1 : Int) > ipAddr.BitLen then none
        else
          let m := CIDRMask r.1 ipAddr.BitLen
          let addr16 := ipAddr.As16
          some (addr16, { IP := Mask addr16 m, Mask := m })

/-! ## `net.go` -/

/-- Embedding of `cloneIP`: a fresh slice with the same bytes. -/
def cloneIP (ip : IP) : IP := ip

/-- Embedding of `p[pos] |= d` on a byte slice; `none` is the index-out-of-range
panic. -/
def orAt (p : IP) (pos : Int) (d : Nat) : Option IP :=
  if 0 ≤ pos ∧ pos < p.length then some (p.set pos.toNat (p.getD pos.toNat 0 ||| d))
  else none

/-- Embedding of `p[pos] += d` on a byte slice; `none` is the index-out-of-range
panic. -/
def addAt (p : IP) (pos : Int) (d : Nat) : Option IP :=
  if 0 ≤ pos ∧ pos < p.length then some (p.set pos.toNat ((p.getD pos.toNat 0 + d) % 256))
  else none

/-- Embedding of `calcDefaultGateway`, over the address parser `netip.ParseAddr`. -/
def calcDefaultGateway (ParseAddr : String → Option Addr) (cidr : String) :
    Result (IP × IPNet) :=
  match ParseCIDR ParseAddr cidr with
  | none => .err .parseError
  | some (_, network) =>
    let sz := Size network.Mask
    if sz.2 - sz.1 = 0 then .err .notANetwork
    else
      let gwIP := cloneIP network.IP
      match orAt gwIP ((gwIP.length : Int) - 1) 1 with
      | none => .panic
      | some gw => .ok (gw, network)

/-- Embedding of the loop of `generateIPAddr`
`for left, pos4, pos6 := id, len(v4)-1, len(v6)-2; left != 0; left, pos4, pos6 = left>>8, pos4-1, pos6-2`
entered with the given state: the final `v4` and `v6`, or `none` for an
index-out-of-range panic. -/
def addrLoop (left : Nat) (pos4 pos6 : Int) (v4 v6 : IP) : Option (IP × IP) :=
  if h : left = 0 then some (v4, v6)
  else
    let decimalId := left &&& 0xff
    match addAt v4 pos4 decimalId with
    | none => none
    | some v4a =>
      let hexId := (decimalId % 10 + ((decimalId / 10) % 10) * 16 + (decimalId / 100) * 256) % 65536
      match addAt v6 (pos6 + 0) ((hexId >>> 8) &&& 0xff) with
      | none => none
      | some v6a =>
        match addAt v6a (pos6 + 1) (hexId &&& 0xff) with
        | none => none
        | some v6b => addrLoop (left >>> 8) (pos4 - 1) (pos6 - 2) v4a v6b
termination_by left
decreasing_by
  rw [Nat.shiftRight_eq_div_pow]
  exact Nat.div_lt_self (Nat.pos_of_ne_zero h) (by norm_num)

/-- Embedding of `generateIPAddr`; `id` is the `uint32` argument. -/
def generateIPAddr (v4Net v6Net : IPNet) (id : Nat) : Result (IP × IP) :=
  let v4 := cloneIP v4Net.IP
  let v6 := cloneIP v6Net.IP
  match addrLoop id ((v4.length : Int) - 1) ((v6.length : Int) - 2) v4 v6 with
  | none => .panic
  | some (v4, v6) =>
    if !Contains v4Net v4 || Equal v4 (Mask (IPv4 0xff 0xff 0xff 0xff) v4Net.Mask) then
      .err .kErrIPLimitExceeds
    else if !Contains v6Net v6 || !(IsGlobalUnicast v6 || IsLinkLocalUnicast v6) then
      .err .kErrIPLimitExceeds
    else .ok (v4, v6)

/-- The high byte `byte((hexId >> 8) & 0xff)` that `generateIPAddr` adds to IPv6 for the
chunk `d`. -/
def hexHi (d : Nat) : Nat :=
  (((d % 10 + ((d / 10) % 10) * 16 + (d / 100) * 256) % 65536) >>> 8) &&& 0xff

/-- The low byte `byte(hexId & 0xff)` that `generateIPAddr` adds to IPv6 for the
chunk `d`. -/
def hexLo (d : Nat) : Nat :=
  ((d % 10 + ((d / 10) % 10) * 16 + (d / 100) * 256) % 65536) &&& 0xff

/-- The broadcast address of a network: the base address with every host bit set. -/
def broadcastAddr (n : IPNet) : IP :=
  (List.range n.IP.length).map (fun i => n.IP.getD i 0 ||| (255 - n.Mask.getD i 0))

/-- The IPv4 subnet 127.10.0.0/16 of the tests. -/
def netV4Test : IPNet := ⟨[127, 10, 0, 0], [255, 255, 0, 0]⟩

/-- The IPv6 subnet fe80::/112 of the tests. -/
def netV6Test112 : IPNet :=
  ⟨[0xfe, 0x80, 0, 0, 0, 0, 0, 0, 0, 0, 0, 0, 0, 0, 0, 0],
   [255, 255, 255, 255, 255, 255, 255, 255, 255, 255, 255, 255, 255, 255, 0, 0]⟩

/-- The IPv6 subnet fe80::/64 of the tests. -/
def netV6Test64 : IPNet :=
  ⟨[0xfe, 0x80, 0, 0, 0, 0, 0, 0, 0, 0, 0, 0, 0, 0, 0, 0],
   [255, 255, 255, 255, 255, 255, 255, 255, 0, 0, 0, 0, 0, 0, 0, 0]⟩

/-- The value of a byte slice read as a big-endian number. -/
def ipToNat (ip : IP) : Nat := ip.foldl (fun acc b => acc * 256 + b) 0

/-- The base address of a network has no host bit set: every bit of it is under the
mask. -/
def hostBitsZero (n : IPNet) : Prop :=
  ∀ i, i < n.IP.length → n.IP.getD i 0 &&& n.Mask.getD i 0 = n.IP.getD i 0

instance (n : IPNet) : Decidable (hostBitsZero n) := by unfold hostBitsZero; infer_instance

/-- The value of `netip.ParseAddr` on the two addresses of the tests, 127.168.128.0 and
fe80:1234:1234:1234::, for evaluating the resolver on them; elsewhere `none`. -/
def testParseAddr (s : String) : Option Addr :=
  if s = "127.168.128.0" then some (.ip4 0x7FA88000)
  else if s = "fe80:1234:1234:1234::" then some (.ip6 0xfe801234123412340000000000000000 "")
  else none

/-! ## `net_setup.go` -/

/-- The record `wireguardConfig`. -/
structure wireguardConfig where
  gatewayIPv4 : List Nat
  gatewayIPv6 : List Nat
  networkIPv4 : IPNet
  networkIPv6 : IPNet
deriving Repr, DecidableEq

/-- Embedding of `initWireguardConfig`. The package variables it reads, the CIDR strings
`networkIPv4` and `networkIPv6`, are arguments; the package variable it writes,
`wgConfig` (a pointer, `none` when `nil`), is passed in and returned. The first
component is the returned `error`: `.ok ()` for `nil`. -/
def initWireguardConfig (ParseAddr : String → Option Addr) (networkIPv4 networkIPv6 : String)
    (wgConfig : Option wireguardConfig) : Result Unit × Option wireguardConfig :=
  match calcDefaultGateway ParseAddr networkIPv4 with
  | .err e => (.err e, wgConfig)
  | .panic => (.panic, wgConfig)
  | .ok (gatewayIPv4, netIPv4) =>
    match calcDefaultGateway ParseAddr networkIPv6 with
    | .err e => (.err e, wgConfig)
    | .panic => (.panic, wgConfig)
    | .ok (gatewayIPv6, netIPv6) =>
      (.ok (), some { gatewayIPv4 := gatewayIPv4, networkIPv4 := netIPv4,
                      gatewayIPv6 := gatewayIPv6, networkIPv6 := netIPv6 })

/-- Embedding of the method `(conf *wireguardConfig) generateIPAddr`. -/
def wireguardConfig.generateIPAddr (conf : wireguardConfig) (id : Nat) : Result (IP × IP) :=
  Subspace.generateIPAddr conf.networkIPv4 conf.networkIPv6 id

/-! ### The scan -/

theorem getLast?_eq_getElem? (s : List Int) : s.getLast? = s[s.length - 1]? := by
  rcases List.eq_nil_or_concat s with h | ⟨l, a, h⟩
  · subst h; rfl
  · subst h; simp

/-- What the scan returns, started at `i = k + 2` inside the list with every earlier
position `j` holding `j + 2`: either it runs to `maxID` and keeps `freeID`, or it
breaks at the first position `m` that does not hold `m + 2`. It never reads out of
range. -/
theorem scanLoop_result (s : List Int) (maxID : Int) (hlast : s.getLast? = some maxID)
    (f : Nat) :
    ∀ (n k : Nat), (maxID - ((k : Int) + 2)).toNat = n → k < s.length →
      (∀ j : Nat, j < k → s[j]? = some ((j : Int) + 2)) →
      (scanLoop s maxID ((k : Int) + 2) f = some f ∧
          ∀ j : Nat, (j : Int) + 2 < maxID → s[j]? = some ((j : Int) + 2)) ∨
      (∃ (m : Nat) (v : Int), k ≤ m ∧ (m : Int) + 2 < maxID ∧ s[m]? = some v ∧
          v ≠ (m : Int) + 2 ∧ (∀ j : Nat, j < m → s[j]? = some ((j : Int) + 2)) ∧
          scanLoop s maxID ((k : Int) + 2) f = some (toUint32 ((m : Int) + 2))) := by
  intro n
  induction n with
  | zero =>
    intro k hn _ hpre
    left
    have hge : ¬ ((k : Int) + 2 < maxID) := by omega
    refine ⟨?_, ?_⟩
    · rw [scanLoop]; simp [hge]
    · intro j hj; exact hpre j (by omega)
  | succ n ih =>
    intro k hn hk hpre
    have hlt : (k : Int) + 2 < maxID := by omega
    have hidx : ((k : Int) + 2 - 2).toNat = k := by omega
    obtain ⟨v, hv⟩ : ∃ v, s[k]? = some v := ⟨s[k], by simp [hk]⟩
    by_cases hne : v = (k : Int) + 2
    · -- the position matches: the scan moves on
      have hk1 : k + 1 < s.length := by
        by_contra hcon
        have hkl : s.length - 1 = k := by omega
        rw [getLast?_eq_getElem?, hkl, hv] at hlast
        simp at hlast
        omega
      have hpre1 : ∀ j : Nat, j < k + 1 → s[j]? = some ((j : Int) + 2) := by
        intro j hj
        rcases Nat.lt_succ_iff_lt_or_eq.mp hj with h | h
        · exact hpre j h
        · subst h; rw [hv, hne]
      have hstep : scanLoop s maxID ((k : Int) + 2) f
          = scanLoop s maxID (((k + 1 : Nat) : Int) + 2) f := by
        rw [scanLoop]
        simp only [hlt, if_true, hidx, hv]
        have h0 : (0 : Int) ≤ (k : Int) + 2 - 2 := by omega
        simp only [h0, if_true]
        have : ¬ ((k : Int) + 2 ≠ v) := by simp [hne]
        simp only [this, if_false]
        congr 1
      rcases ih (k + 1) (by push_cast; omega) hk1 hpre1 with ⟨h1, h2⟩ | ⟨m, w, h1, h2, h3, h4, h5, h6⟩
      · left; exact ⟨by rw [hstep, h1], h2⟩
      · right; exact ⟨m, w, by omega, h2, h3, h4, h5, by rw [hstep, h6]⟩
    · -- the position does not match: the scan breaks here
      right
      refine ⟨k, v, le_refl k, hlt, hv, hne, hpre, ?_⟩
      rw [scanLoop]
      simp only [hlt, if_true, hidx, hv]
      have h0 : (0 : Int) ≤ (k : Int) + 2 - 2 := by omega
      simp only [h0, if_true]
      have : (k : Int) + 2 ≠ v := fun h => hne h.symm
      simp [this]

/-! ### Sorted lists of distinct identifiers -/

theorem sortSlice_sorted (ids : List Int) : (sortSlice ids).Sorted (fun a b => a ≤ b) :=
  List.sorted_insertionSort _ ids

theorem sortSlice_perm (ids : List Int) : (sortSlice ids).Perm ids :=
  List.perm_insertionSort _ ids

theorem mem_sortSlice (ids : List Int) (x : Int) : x ∈ sortSlice ids ↔ x ∈ ids :=
  (sortSlice_perm ids).mem_iff

/-- In an ascending list every entry is at most the last one. -/
theorem sorted_le_last (s : List Int) (hs : s.Sorted (fun a b => a ≤ b)) (maxID : Int)
    (hlast : s.getLast? = some maxID) (j : Nat) (x : Int) (hx : s[j]? = some x) :
    x ≤ maxID := by
  rw [getLast?_eq_getElem?] at hlast
  obtain ⟨hj, rfl⟩ := List.getElem?_eq_some.mp hx
  obtain ⟨hl, rfl⟩ := List.getElem?_eq_some.mp hlast
  rcases Nat.lt_or_ge j (s.length - 1) with h | h
  · exact List.pairwise_iff_getElem.mp hs j (s.length - 1) hj hl h
  · have : j = s.length - 1 := by omega
    subst this; exact le_refl _

/-- In a strictly ascending list of identifiers that are at least 2, position `j`
holds at least `j + 2`. -/
theorem sorted_lower_bound (s : List Int) (hs : s.Sorted (fun a b => a < b))
    (h2 : ∀ x ∈ s, 2 ≤ x) :
    ∀ (j : Nat) (x : Int), s[j]? = some x → (j : Int) + 2 ≤ x := by
  intro j
  induction j with
  | zero =>
    intro x hx
    have := h2 x (List.mem_iff_getElem?.mpr ⟨0, hx⟩)
    simpa using this
  | succ j ih =>
    intro x hx
    obtain ⟨hj, rfl⟩ := List.getElem?_eq_some.mp hx
    have hj0 : j < s.length := by omega
    have h1 := ih s[j] (by simp [hj0])
    have h3 : s[j] < s[j + 1] :=
      List.pairwise_iff_getElem.mp hs j (j + 1) hj0 hj (Nat.lt_succ_self j)
    push_cast
    omega

theorem toUint32_of_lt (x : Int) (h0 : 0 ≤ x) (h1 : x < 2 ^ 32) : (toUint32 x : Int) = x := by
  unfold toUint32
  have : x % 2 ^ 32 = x := Int.emod_eq_of_lt h0 h1
  rw [this]
  exact Int.toNat_of_nonneg h0

/-- The free-id finder on pairwise distinct identifiers that are at least 2: before the
conversion to `uint32` the result is the smallest integer `r ≥ 2` outside the list, and
`r` is at most one past the maximum and at most two past the length. -/
theorem findFirstFreeID_core (ids : List Int) (hnd : ids.Nodup) (h2 : ∀ x ∈ ids, 2 ≤ x) :
    ∃ r : Int, FindFirstFreeIDOfIDs ids = some (toUint32 r) ∧ 2 ≤ r ∧
      r ≤ (ids.length : Int) + 2 ∧ (ids ≠ [] → ∃ x ∈ ids, r ≤ x + 1) ∧ r ∉ ids ∧
      ∀ n : Int, 2 ≤ n → n < r → n ∈ ids := by
  have hsle := sortSlice_sorted ids
  have hperm := sortSlice_perm ids
  have hslt : (sortSlice ids).Sorted (fun a b => a < b) :=
    hsle.lt_of_le (hperm.nodup_iff.mpr hnd)
  have hs2 : ∀ x ∈ sortSlice ids, 2 ≤ x := fun x hx => h2 x ((mem_sortSlice ids x).mp hx)
  have hlen : (sortSlice ids).length = ids.length := hperm.length_eq
  have hlow := sorted_lower_bound (sortSlice ids) hslt hs2
  unfold FindFirstFreeIDOfIDs
  simp only
  cases hlast : (sortSlice ids).getLast? with
  | none =>
    have hnil : sortSlice ids = [] := by simpa using hlast
    have hids : ids = [] := by
      have := hperm.length_eq
      rw [hnil] at this
      exact List.length_eq_zero.mp this.symm
    subst hids
    exact ⟨2, by simp [toUint32], le_refl _, by simp, by simp, by simp, by
      intro n h1 h3; omega⟩
  | some maxID =>
    simp only
    have hpos : 0 < (sortSlice ids).length := by
      rcases Nat.eq_zero_or_pos (sortSlice ids).length with h | h
      · rw [List.length_eq_zero.mp h] at hlast; simp at hlast
      · exact h
    have hlastget : (sortSlice ids)[(sortSlice ids).length - 1]? = some maxID := by
      rw [← getLast?_eq_getElem?]; exact hlast
    have hmaxmem : maxID ∈ sortSlice ids := List.mem_iff_getElem?.mpr ⟨_, hlastget⟩
    have hmaxlow := hlow _ _ hlastget
    have hle : ∀ x ∈ ids, x ≤ maxID := by
      intro x hx
      obtain ⟨j, hj⟩ := List.mem_iff_getElem?.mp ((mem_sortSlice ids x).mpr hx)
      exact sorted_le_last _ hsle maxID hlast j x hj
    have hres := scanLoop_result (sortSlice ids) maxID hlast (toUint32 (maxID + 1))
      (maxID - ((0 : Nat) + 2 : Int)).toNat 0 rfl hpos (by intro j hj; omega)
    have hzero : ((0 : Nat) : Int) + 2 = 2 := by norm_num
    rw [hzero] at hres
    rcases hres with ⟨hrun, hall⟩ | ⟨m, v, _, hm, hv, hvne, hpre, hrun⟩
    · -- no gap: the list is 2, 3, ..., maxID
      have hmaxle : maxID ≤ ((sortSlice ids).length : Int) + 1 := by
        by_contra hcon
        have := hall ((sortSlice ids).length - 1) (by omega)
        rw [hlastget] at this
        simp at this
        omega
      refine ⟨maxID + 1, hrun, by omega, by omega, ?_, ?_, ?_⟩
      · intro _; exact ⟨maxID, (mem_sortSlice ids maxID).mp hmaxmem, le_refl _⟩
      · intro hmem; have := hle _ hmem; omega
      · intro n hn2 hn
        rw [← mem_sortSlice]
        rcases lt_or_eq_of_le (Int.lt_add_one_iff.mp hn) with h | h
        · have := hall (n - 2).toNat (by omega)
          have hcast : (((n - 2).toNat : Nat) : Int) + 2 = n := by omega
          rw [hcast] at this
          exact List.mem_iff_getElem?.mpr ⟨_, this⟩
        · rw [h]; exact hmaxmem
    · -- a gap at position m
      have hmlen : m < (sortSlice ids).length := (List.getElem?_eq_some.mp hv).1
      refine ⟨(m : Int) + 2, hrun, by omega, by omega, ?_, ?_, ?_⟩
      · intro _; exact ⟨maxID, (mem_sortSlice ids maxID).mp hmaxmem, by omega⟩
      · intro hmem
        obtain ⟨j, hj⟩ := List.mem_iff_getElem?.mp ((mem_sortSlice ids _).mpr hmem)
        have hjl := hlow j _ hj
        rcases Nat.lt_trichotomy j m with h | h | h
        · have := hpre j h
          rw [hj] at this
          simp at this
          omega
        · subst h
          rw [hv] at hj
          simp at hj
          exact hvne hj
        · omega
      · intro n hn2 hn
        rw [← mem_sortSlice]
        have := hpre (n - 2).toNat (by omega)
        have hcast : (((n - 2).toNat : Nat) : Int) + 2 = n := by omega
        rw [hcast] at this
        exact List.mem_iff_getElem?.mpr ⟨_, this⟩

/-! ### Claims about the free-id finder -/

/-- C1: on pairwise distinct identifiers, each at least 2 and below `2 ^ 32 - 1`, in any
order, `FindFirstFreeID` returns the smallest integer `r ≥ 2` that is not in the list;
it returns 2 for the empty list, 4 for `[2, 3, 5]` and 5 for `[2, 3, 4]`. -/
theorem findFirstFreeID_smallest_free :
    (∀ profiles : List Profile, (getProfileIDs profiles).Nodup →
      (∀ x ∈ getProfileIDs profiles, 2 ≤ x ∧ x < 2 ^ 32 - 1) →
      ∃ r : Nat, FindFirstFreeID profiles = some r ∧ 2 ≤ r ∧
        (r : Int) ∉ getProfileIDs profiles ∧
        ∀ n : Int, 2 ≤ n → n < (r : Int) → n ∈ getProfileIDs profiles) ∧
    FindFirstFreeID [] = some 2 ∧
    FindFirstFreeID [⟨2⟩, ⟨3⟩, ⟨5⟩] = some 4 ∧
    FindFirstFreeID [⟨2⟩, ⟨3⟩, ⟨4⟩] = some 5 := by
  refine ⟨?_, ?_, ?_, ?_⟩
  · intro profiles hnd hrange
    obtain ⟨r, hr, hr2, _, hmax, hnot, hall⟩ :=
      findFirstFreeID_core (getProfileIDs profiles) hnd (fun x hx => (hrange x hx).1)
    have hlt : r < 2 ^ 32 := by
      by_cases hnil : getProfileIDs profiles = []
      · have := hall 2 (le_refl _)
        by_contra hcon
        have h2mem := this (by omega)
        rw [hnil] at h2mem
        simp at h2mem
      · obtain ⟨x, hx, hrx⟩ := hmax hnil
        have := (hrange x hx).2
        omega
    have hcast := toUint32_of_lt r (by omega) hlt
    refine ⟨toUint32 r, hr, ?_, ?_, ?_⟩
    · have : (2 : Int) ≤ (toUint32 r : Int) := by rw [hcast]; exact hr2
      exact_mod_cast this
    · rw [hcast]; exact hnot
    · intro n hn2 hn; rw [hcast] at hn; exact hall n hn2 hn
  · simp [FindFirstFreeID, getProfileIDs, FindFirstFreeIDOfIDs, sortSlice]
  · simp [FindFirstFreeID, getProfileIDs, FindFirstFreeIDOfIDs, sortSlice, scanLoop, toUint32]
  · simp [FindFirstFreeID, getProfileIDs, FindFirstFreeIDOfIDs, sortSlice, scanLoop, toUint32]

/-- C1 at the unsorted list `[5, 2, 3]`. -/
theorem findFirstFreeID_smallest_free_witness :
    (getProfileIDs [⟨5⟩, ⟨2⟩, ⟨3⟩]).Nodup ∧
    (∀ x ∈ getProfileIDs [⟨5⟩, ⟨2⟩, ⟨3⟩], 2 ≤ x ∧ x < 2 ^ 32 - 1) ∧
    ∃ r : Nat, FindFirstFreeID [⟨5⟩, ⟨2⟩, ⟨3⟩] = some r ∧ 2 ≤ r ∧
      (r : Int) ∉ getProfileIDs [⟨5⟩, ⟨2⟩, ⟨3⟩] ∧
      ∀ n : Int, 2 ≤ n → n < (r : Int) → n ∈ getProfileIDs [⟨5⟩, ⟨2⟩, ⟨3⟩] :=
  ⟨by decide, by decide,
    findFirstFreeID_smallest_free.1 [⟨5⟩, ⟨2⟩, ⟨3⟩] (by decide) (by decide)⟩

/-- C2 as stated fails: with an identifier below 2 in the list (`[1, 2, 3]`) the finder
returns 2, and with a repeated identifier (`[2, 2, 3, 4]`) it returns 3; both are in
the list. -/
theorem findFirstFreeID_returns_assigned :
    FindFirstFreeID [⟨1⟩, ⟨2⟩, ⟨3⟩] = some 2 ∧
    ((2 : Nat) : Int) ∈ getProfileIDs [⟨1⟩, ⟨2⟩, ⟨3⟩] ∧
    FindFirstFreeID [⟨2⟩, ⟨2⟩, ⟨3⟩, ⟨4⟩] = some 3 ∧
    ((3 : Nat) : Int) ∈ getProfileIDs [⟨2⟩, ⟨2⟩, ⟨3⟩, ⟨4⟩] := by
  refine ⟨?_, by decide, ?_, by decide⟩
  · simp [FindFirstFreeID, getProfileIDs, FindFirstFreeIDOfIDs, sortSlice, scanLoop, toUint32]
  · simp [FindFirstFreeID, getProfileIDs, FindFirstFreeIDOfIDs, sortSlice, scanLoop, toUint32]

/-- C2, amended: on pairwise distinct identifiers, each at least 2, fewer than
`2 ^ 32 - 2` of them, `FindFirstFreeID` returns an identifier that is not in the
list. -/
theorem findFirstFreeID_not_assigned (profiles : List Profile)
    (hnd : (getProfileIDs profiles).Nodup)
    (h2 : ∀ x ∈ getProfileIDs profiles, 2 ≤ x)
    (hlen : (getProfileIDs profiles).length < 2 ^ 32 - 2) :
    ∃ r : Nat, FindFirstFreeID profiles = some r ∧ (r : Int) ∉ getProfileIDs profiles := by
  obtain ⟨r, hr, hr2, hrlen, _, hnot, _⟩ :=
    findFirstFreeID_core (getProfileIDs profiles) hnd h2
  have hlt : r < 2 ^ 32 := by
    have h232 : (2 : Nat) ^ 32 = 4294967296 := by norm_num
    have h232i : (2 : Int) ^ 32 = 4294967296 := by norm_num
    omega
  have hcast := toUint32_of_lt r (by omega) hlt
  exact ⟨toUint32 r, hr, by rw [hcast]; exact hnot⟩

/-- C2 amended, at the list `[7, 2, 3]`. -/
theorem findFirstFreeID_not_assigned_witness :
    (getProfileIDs [⟨7⟩, ⟨2⟩, ⟨3⟩]).Nodup ∧
    (∀ x ∈ getProfileIDs [⟨7⟩, ⟨2⟩, ⟨3⟩], 2 ≤ x) ∧
    (getProfileIDs [⟨7⟩, ⟨2⟩, ⟨3⟩]).length < 2 ^ 32 - 2 ∧
    ∃ r : Nat, FindFirstFreeID [⟨7⟩, ⟨2⟩, ⟨3⟩] = some r ∧
      (r : Int) ∉ getProfileIDs [⟨7⟩, ⟨2⟩, ⟨3⟩] :=
  ⟨by decide, by decide, by decide,
    findFirstFreeID_not_assigned [⟨7⟩, ⟨2⟩, ⟨3⟩] (by decide) (by decide) (by decide)⟩

/-! ### The address loop -/

theorem addrLoop_zero (pos4 pos6 : Int) (v4 v6 : IP) :
    addrLoop 0 pos4 pos6 v4 v6 = some (v4, v6) := by
  rw [addrLoop]; simp

theorem addrLoop_step (left : Nat) (h : left ≠ 0) (pos4 pos6 : Int) (v4 v6 : IP) :
    addrLoop left pos4 pos6 v4 v6 =
      match addAt v4 pos4 (left &&& 0xff) with
      | none => none
      | some v4a =>
        match addAt v6 (pos6 + 0) (hexHi (left &&& 0xff)) with
        | none => none
        | some v6a =>
          match addAt v6a (pos6 + 1) (hexLo (left &&& 0xff)) with
          | none => none
          | some v6b => addrLoop (left >>> 8) (pos4 - 1) (pos6 - 2) v4a v6b := by
  rw [addrLoop]; simp only [h, dite_false, hexHi, hexLo]

theorem and_255 (x : Nat) : x &&& 255 = x % 256 := Nat.and_pow_two_sub_one_eq_mod x 8

theorem shr_8 (x : Nat) : x >>> 8 = x / 256 := by
  rw [Nat.shiftRight_eq_div_pow]

set_option maxRecDepth 100000 in
theorem hexHi_eq : ∀ d : Nat, d < 256 → hexHi d = d / 100 := by
  unfold hexHi
  decide

set_option maxRecDepth 100000 in
theorem hexLo_eq : ∀ d : Nat, d < 256 → hexLo d = d % 10 + 16 * ((d / 10) % 10) := by
  unfold hexLo
  decide

theorem generateIPAddr_of_loop (v4Net v6Net : IPNet) (id : Nat) (v4 v6 : IP)
    (h : addrLoop id ((v4Net.IP.length : Int) - 1) ((v6Net.IP.length : Int) - 2)
      v4Net.IP v6Net.IP = some (v4, v6)) :
    generateIPAddr v4Net v6Net id =
      if (!Contains v4Net v4 || Equal v4 (Mask (IPv4 0xff 0xff 0xff 0xff) v4Net.Mask)) = true then
        .err .kErrIPLimitExceeds
      else if (!Contains v6Net v6 || !(IsGlobalUnicast v6 || IsLinkLocalUnicast v6)) = true then
        .err .kErrIPLimitExceeds
      else .ok (v4, v6) := by
  unfold generateIPAddr
  simp only [cloneIP]
  rw [h]

theorem generateIPAddr_ok_iff (v4Net v6Net : IPNet) (id : Nat) (v4 v6 : IP) :
    generateIPAddr v4Net v6Net id = .ok (v4, v6) ↔
      addrLoop id ((v4Net.IP.length : Int) - 1) ((v6Net.IP.length : Int) - 2)
        v4Net.IP v6Net.IP = some (v4, v6) ∧
      Contains v4Net v4 = true ∧
      Equal v4 (Mask (IPv4 0xff 0xff 0xff 0xff) v4Net.Mask) = false ∧
      Contains v6Net v6 = true ∧
      (IsGlobalUnicast v6 = true ∨ IsLinkLocalUnicast v6 = true) := by
  constructor
  · intro h
    cases hl : addrLoop id ((v4Net.IP.length : Int) - 1) ((v6Net.IP.length : Int) - 2)
        v4Net.IP v6Net.IP with
    | none =>
      unfold generateIPAddr at h
      simp only [cloneIP] at h
      rw [hl] at h
      cases h
    | some p =>
      obtain ⟨w4, w6⟩ := p
      rw [generateIPAddr_of_loop _ _ _ _ _ hl] at h
      split at h
      · cases h
      · split at h
        · cases h
        · rename_i h1 h2
          injection h with h
          injection h with ha hb
          subst ha; subst hb
          simp only [Bool.or_eq_true, Bool.not_eq_true', not_or, Bool.not_eq_false,
            Bool.not_eq_true] at h1 h2
          exact ⟨rfl, h1.1, h1.2, h2.1, h2.2⟩
  · rintro ⟨hl, h1, h2, h3, h4⟩
    rw [generateIPAddr_of_loop _ _ _ _ _ hl]
    rcases h4 with h4 | h4 <;> simp [h1, h2, h3, h4]

/-! ### Claims about `generateIPAddr` -/

/-- C3 fails on the code: for 127.10.10.128/25 (with fe80::/64) and id 127,
`generateIPAddr` succeeds and returns 127.10.10.255, the broadcast address of the
IPv4 subnet. The code compares the address with `IPv4(255,255,255,255).Mask(mask)`,
which is the mask 255.255.255.128 itself and not the broadcast address. -/
theorem generateIPAddr_returns_broadcast :
    generateIPAddr ⟨[127, 10, 10, 128], [255, 255, 255, 128]⟩
        ⟨[0xfe, 0x80, 0, 0, 0, 0, 0, 0, 0, 0, 0, 0, 0, 0, 0, 0],
         [255, 255, 255, 255, 255, 255, 255, 255, 0, 0, 0, 0, 0, 0, 0, 0]⟩ 127
      = .ok ([127, 10, 10, 255], [0xfe, 0x80, 0, 0, 0, 0, 0, 0, 0, 0, 0, 0, 0, 0, 1, 0x27]) ∧
    broadcastAddr ⟨[127, 10, 10, 128], [255, 255, 255, 128]⟩ = [127, 10, 10, 255] ∧
    Mask (IPv4 0xff 0xff 0xff 0xff) [255, 255, 255, 128] = [255, 255, 255, 128] := by
  refine ⟨?_, by decide, by decide⟩
  rw [generateIPAddr_ok_iff]
  refine ⟨?_, by decide, by decide, by decide, by decide⟩
  rw [addrLoop_step _ (by decide)]
  have : (127 >>> 8) = 0 := by decide
  rw [this]
  simp only [addrLoop_zero]
  decide

theorem linkLocal_excludes (ip : IP) (h : IsLinkLocalUnicast ip = true) :
    IsUnspecified ip = false ∧ IsLoopback ip = false ∧ IsMulticast ip = false := by
  unfold IsLinkLocalUnicast at h
  unfold IsUnspecified IsLoopback IsMulticast
  cases h4 : To4 ip with
  | some ip4 =>
    rw [h4] at h
    simp only [Bool.and_eq_true, beq_iff_eq] at h
    obtain ⟨h0, h1⟩ := h
    simp only [h0]
    refine ⟨?_, by decide, by decide⟩
    unfold To4 at h4
    split at h4
    · rename_i hlen
      injection h4 with h4
      subst h4
      have e1 : Equal ip IPv4zero = false := by
        unfold Equal
        have : ip.length ≠ IPv4zero.length := by rw [hlen]; decide
        simp only [this, if_false]
        have hl16 : IPv4zero.length = 16 := by decide
        simp only [hlen, hl16, and_self, if_true]
        have : ¬ (ip = List.drop 12 IPv4zero) := by
          intro hc; rw [hc] at h0; revert h0; decide
        simp [this]
      have e2 : Equal ip IPv6unspecified = false := by
        unfold Equal
        have : ip.length ≠ IPv6unspecified.length := by rw [hlen]; decide
        simp only [this, if_false]
        have hl16 : IPv6unspecified.length = 16 := by decide
        simp only [hlen, hl16, and_self, if_true]
        have : ¬ (List.take 12 IPv6unspecified = v4InV6Prefix) := by decide
        simp [this]
      simp [e1, e2]
    · split at h4
      · rename_i hlen hc
        injection h4 with h4
        subst h4
        have e1 : Equal ip IPv4zero = false := by
          unfold Equal
          have : ip.length = IPv4zero.length := by rw [hc.1]; decide
          simp only [this, if_true]
          have : ¬ (ip = IPv4zero) := by
            intro hc; rw [hc] at h0; revert h0; decide
          simp [this]
        have e2 : Equal ip IPv6unspecified = false := by
          unfold Equal
          have : ip.length = IPv6unspecified.length := by rw [hc.1]; decide
          simp only [this, if_true]
          have : ¬ (ip = IPv6unspecified) := by
            intro hc; rw [hc] at h0; revert h0; decide
          simp [this]
        simp [e1, e2]
      · cases h4
  | none =>
    rw [h4] at h
    simp only [Bool.and_eq_true, beq_iff_eq, decide_eq_true_eq] at h
    obtain ⟨⟨hlen, h0⟩, h1⟩ := h
    have e1 : Equal ip IPv4zero = false := by
      unfold Equal
      have : ip.length = IPv4zero.length := by rw [hlen]; decide
      simp only [this, if_true]
      have : ¬ (ip = IPv4zero) := by
        intro hc; rw [hc] at h0; revert h0; decide
      simp [this]
    have e2 : Equal ip IPv6unspecified = false := by
      unfold Equal
      have : ip.length = IPv6unspecified.length := by rw [hlen]; decide
      simp only [this, if_true]
      have : ¬ (ip = IPv6unspecified) := by
        intro hc; rw [hc] at h0; revert h0; decide
      simp [this]
    have e3 : Equal ip IPv6loopback = false := by
      unfold Equal
      have : ip.length = IPv6loopback.length := by rw [hlen]; decide
      simp only [this, if_true]
      have : ¬ (ip = IPv6loopback) := by
        intro hc; rw [hc] at h0; revert h0; decide
      simp [this]
    refine ⟨by simp [e1, e2], e3, ?_⟩
    rw [h0]
    simp

theorem globalUnicast_excludes (ip : IP) (h : IsGlobalUnicast ip = true) :
    IsUnspecified ip = false ∧ IsLoopback ip = false ∧ IsMulticast ip = false := by
  unfold IsGlobalUnicast at h
  simp only [Bool.and_eq_true, Bool.not_eq_true'] at h
  exact ⟨h.1.1.1.2, h.1.1.2, h.1.2⟩

/-- C5: whenever `generateIPAddr` succeeds, the IPv4 result is contained in the IPv4
subnet, the IPv6 result is contained in the IPv6 subnet, and the IPv6 result is
global-unicast or link-local-unicast, hence not unspecified, loopback or multicast. -/
theorem generateIPAddr_within_subnets (v4Net v6Net : IPNet) (id : Nat) (v4 v6 : IP)
    (h : generateIPAddr v4Net v6Net id = .ok (v4, v6)) :
    Contains v4Net v4 = true ∧ Contains v6Net v6 = true ∧
    (IsGlobalUnicast v6 = true ∨ IsLinkLocalUnicast v6 = true) ∧
    IsUnspecified v6 = false ∧ IsLoopback v6 = false ∧ IsMulticast v6 = false := by
  obtain ⟨_, h1, _, h3, h4⟩ := (generateIPAddr_ok_iff v4Net v6Net id v4 v6).mp h
  refine ⟨h1, h3, h4, ?_⟩
  rcases h4 with h4 | h4
  · exact globalUnicast_excludes v6 h4
  · exact linkLocal_excludes v6 h4

theorem generateIPAddr_example_100 :
    generateIPAddr ⟨[127, 10, 0, 0], [255, 255, 0, 0]⟩
        ⟨[0xfe, 0x80, 0, 0, 0, 0, 0, 0, 0, 0, 0, 0, 0, 0, 0, 0],
         [255, 255, 255, 255, 255, 255, 255, 255, 255, 255, 255, 255, 255, 255, 0, 0]⟩ 100
      = .ok ([127, 10, 0, 100], [0xfe, 0x80, 0, 0, 0, 0, 0, 0, 0, 0, 0, 0, 0, 0, 1, 0]) := by
  rw [generateIPAddr_ok_iff]
  refine ⟨?_, by decide, by decide, by decide, by decide⟩
  rw [addrLoop_step _ (by decide)]
  have : (100 >>> 8) = 0 := by decide
  rw [this]
  simp only [addrLoop_zero]
  decide

/-- C5 at 127.10.0.0/16, fe80::/112 and id 100. -/
theorem generateIPAddr_within_subnets_witness :
    generateIPAddr ⟨[127, 10, 0, 0], [255, 255, 0, 0]⟩
        ⟨[0xfe, 0x80, 0, 0, 0, 0, 0, 0, 0, 0, 0, 0, 0, 0, 0, 0],
         [255, 255, 255, 255, 255, 255, 255, 255, 255, 255, 255, 255, 255, 255, 0, 0]⟩ 100
      = .ok ([127, 10, 0, 100], [0xfe, 0x80, 0, 0, 0, 0, 0, 0, 0, 0, 0, 0, 0, 0, 1, 0]) ∧
    Contains ⟨[127, 10, 0, 0], [255, 255, 0, 0]⟩ [127, 10, 0, 100] = true ∧
    Contains ⟨[0xfe, 0x80, 0, 0, 0, 0, 0, 0, 0, 0, 0, 0, 0, 0, 0, 0],
         [255, 255, 255, 255, 255, 255, 255, 255, 255, 255, 255, 255, 255, 255, 0, 0]⟩
       [0xfe, 0x80, 0, 0, 0, 0, 0, 0, 0, 0, 0, 0, 0, 0, 1, 0] = true ∧
    (IsGlobalUnicast [0xfe, 0x80, 0, 0, 0, 0, 0, 0, 0, 0, 0, 0, 0, 0, 1, 0] = true ∨
      IsLinkLocalUnicast [0xfe, 0x80, 0, 0, 0, 0, 0, 0, 0, 0, 0, 0, 0, 0, 1, 0] = true) ∧
    IsUnspecified [0xfe, 0x80, 0, 0, 0, 0, 0, 0, 0, 0, 0, 0, 0, 0, 1, 0] = false ∧
    IsLoopback [0xfe, 0x80, 0, 0, 0, 0, 0, 0, 0, 0, 0, 0, 0, 0, 1, 0] = false ∧
    IsMulticast [0xfe, 0x80, 0, 0, 0, 0, 0, 0, 0, 0, 0, 0, 0, 0, 1, 0] = false :=
  ⟨generateIPAddr_example_100,
    generateIPAddr_within_subnets _ _ 100 _ _ generateIPAddr_example_100⟩

theorem hexHi_zero : hexHi 0 = 0 := by decide
theorem hexLo_zero : hexLo 0 = 0 := by decide

set_option maxHeartbeats 4000000 in
/-- Closed form of the address loop on a 4-byte and a 16-byte slice, for a 32-bit id:
chunk `k` of the id (in base 256) is added to byte `3 - k` of IPv4 and, re-encoded, to
bytes `14 - 2k` and `15 - 2k` of IPv6, each addition modulo 256. -/
theorem addrLoop_closed (id : Nat) (hid : id < 2 ^ 32)
    (a0 a1 a2 a3 c0 c1 c2 c3 c4 c5 c6 c7 c8 c9 c10 c11 c12 c13 c14 c15 : Nat)
    (ha : a0 < 256 ∧ a1 < 256 ∧ a2 < 256 ∧ a3 < 256)
    (hc : c8 < 256 ∧ c9 < 256 ∧ c10 < 256 ∧ c11 < 256 ∧ c12 < 256 ∧ c13 < 256 ∧
      c14 < 256 ∧ c15 < 256) :
    addrLoop id 3 14 [a0, a1, a2, a3]
        [c0, c1, c2, c3, c4, c5, c6, c7, c8, c9, c10, c11, c12, c13, c14, c15] =
      some ([(a0 + id / 256 / 256 / 256 % 256) % 256, (a1 + id / 256 / 256 % 256) % 256,
             (a2 + id / 256 % 256) % 256, (a3 + id % 256) % 256],
            [c0, c1, c2, c3, c4, c5, c6, c7,
             (c8 + hexHi (id / 256 / 256 / 256 % 256)) % 256,
             (c9 + hexLo (id / 256 / 256 / 256 % 256)) % 256,
             (c10 + hexHi (id / 256 / 256 % 256)) % 256,
             (c11 + hexLo (id / 256 / 256 % 256)) % 256,
             (c12 + hexHi (id / 256 % 256)) % 256,
             (c13 + hexLo (id / 256 % 256)) % 256,
             (c14 + hexHi (id % 256)) % 256,
             (c15 + hexLo (id % 256)) % 256]) := by
  obtain ⟨ha0, ha1, ha2, ha3⟩ := ha
  obtain ⟨hc8, hc9, hc10, hc11, hc12, hc13, hc14, hc15⟩ := hc
  have m0 : ∀ x : Nat, x < 256 → (x + 0) % 256 = x := fun x hx => by omega
  by_cases h0 : id = 0
  · subst h0
    simp [addrLoop_zero, hexHi_zero, hexLo_zero]
    omega
  rw [addrLoop_step _ h0]
  simp only [and_255, shr_8]
  by_cases h1 : id / 256 = 0
  · have e1 : id / 256 % 256 = 0 := by omega
    have e2 : id / 256 / 256 % 256 = 0 := by omega
    have e3 : id / 256 / 256 / 256 % 256 = 0 := by omega
    rw [e1, e2, e3, h1]
    simp [addrLoop_zero, hexHi_zero, hexLo_zero, addAt]
    omega
  simp only [addAt]
  norm_num
  rw [addrLoop_step _ h1]
  simp only [and_255, shr_8]
  by_cases h2 : id / 256 / 256 = 0
  · have e2 : id / 256 / 256 % 256 = 0 := by omega
    have e3 : id / 256 / 256 / 256 % 256 = 0 := by omega
    rw [e2, e3, h2]
    simp [addrLoop_zero, hexHi_zero, hexLo_zero, addAt]
    omega
  simp only [addAt]
  norm_num
  rw [addrLoop_step _ h2]
  simp only [and_255, shr_8]
  by_cases h3 : id / 256 / 256 / 256 = 0
  · have e3 : id / 256 / 256 / 256 % 256 = 0 := by omega
    rw [e3, h3]
    simp [addrLoop_zero, hexHi_zero, hexLo_zero, addAt]
    omega
  simp only [addAt]
  norm_num
  rw [addrLoop_step _ h3]
  simp only [and_255, shr_8]
  have h4 : id / 256 / 256 / 256 / 256 = 0 := by
    have h232 : (2 : Nat) ^ 32 = 4294967296 := by norm_num
    omega
  rw [h4]
  simp [addrLoop_zero, addAt]

theorem length_four (l : List Nat) (h : l.length = 4) : ∃ a b c d, l = [a, b, c, d] := by
  rcases l with _ | ⟨a, _ | ⟨b, _ | ⟨c, _ | ⟨d, _ | ⟨e, t⟩⟩⟩⟩⟩ <;> simp at h
  exact ⟨a, b, c, d, rfl⟩

theorem length_sixteen (l : List Nat) (h : l.length = 16) :
    ∃ c0 c1 c2 c3 c4 c5 c6 c7 c8 c9 c10 c11 c12 c13 c14 c15,
      l = [c0, c1, c2, c3, c4, c5, c6, c7, c8, c9, c10, c11, c12, c13, c14, c15] := by
  rcases l with _ | ⟨c0, _ | ⟨c1, _ | ⟨c2, _ | ⟨c3, _ | ⟨c4, _ | ⟨c5, _ | ⟨c6, _ | ⟨c7,
    _ | ⟨c8, _ | ⟨c9, _ | ⟨c10, _ | ⟨c11, _ | ⟨c12, _ | ⟨c13, _ | ⟨c14, _ | ⟨c15,
    _ | ⟨e, t⟩⟩⟩⟩⟩⟩⟩⟩⟩⟩⟩⟩⟩⟩⟩⟩⟩ <;> simp at h
  exact ⟨c0, c1, c2, c3, c4, c5, c6, c7, c8, c9, c10, c11, c12, c13, c14, c15, rfl⟩

theorem chunk4_inj (a d e : Nat) (hd : d < 256) (he : e < 256)
    (h : (a + d) % 256 = (a + e) % 256) : d = e := by omega

theorem chunk6_inj (c c' d e : Nat) (hd : d < 256) (he : e < 256)
    (hhi : (c + hexHi d) % 256 = (c + hexHi e) % 256)
    (hlo : (c' + hexLo d) % 256 = (c' + hexLo e) % 256) : d = e := by
  rw [hexHi_eq d hd, hexHi_eq e he] at hhi
  rw [hexLo_eq d hd, hexLo_eq e he] at hlo
  omega

theorem id_of_chunks (x y : Nat) (hx : x < 2 ^ 32) (hy : y < 2 ^ 32)
    (h0 : x % 256 = y % 256) (h1 : x / 256 % 256 = y / 256 % 256)
    (h2 : x / 256 / 256 % 256 = y / 256 / 256 % 256)
    (h3 : x / 256 / 256 / 256 % 256 = y / 256 / 256 / 256 % 256) : x = y := by
  have h232 : (2 : Nat) ^ 32 = 4294967296 := by norm_num
  omega

/-- The loop of `generateIPAddr` on a 4-byte and a 16-byte base, in closed form. -/
theorem addrLoop_closed_nets (v4Net v6Net : IPNet) (id : Nat) (hid : id < 2 ^ 32)
    (h4 : v4Net.IP.length = 4) (h6 : v6Net.IP.length = 16)
    (hb4 : isBytes v4Net.IP) (hb6 : isBytes v6Net.IP) :
    addrLoop id ((v4Net.IP.length : Int) - 1) ((v6Net.IP.length : Int) - 2)
        v4Net.IP v6Net.IP =
      some ([(v4Net.IP.getD 0 0 + id / 256 / 256 / 256 % 256) % 256,
             (v4Net.IP.getD 1 0 + id / 256 / 256 % 256) % 256,
             (v4Net.IP.getD 2 0 + id / 256 % 256) % 256,
             (v4Net.IP.getD 3 0 + id % 256) % 256],
            v6Net.IP.take 8 ++
            [(v6Net.IP.getD 8 0 + hexHi (id / 256 / 256 / 256 % 256)) % 256,
             (v6Net.IP.getD 9 0 + hexLo (id / 256 / 256 / 256 % 256)) % 256,
             (v6Net.IP.getD 10 0 + hexHi (id / 256 / 256 % 256)) % 256,
             (v6Net.IP.getD 11 0 + hexLo (id / 256 / 256 % 256)) % 256,
             (v6Net.IP.getD 12 0 + hexHi (id / 256 % 256)) % 256,
             (v6Net.IP.getD 13 0 + hexLo (id / 256 % 256)) % 256,
             (v6Net.IP.getD 14 0 + hexHi (id % 256)) % 256,
             (v6Net.IP.getD 15 0 + hexLo (id % 256)) % 256]) := by
  obtain ⟨a0, a1, a2, a3, e4⟩ := length_four _ h4
  obtain ⟨c0, c1, c2, c3, c4, c5, c6, c7, c8, c9, c10, c11, c12, c13, c14, c15, e6⟩ :=
    length_sixteen _ h6
  rw [e4] at hb4
  rw [e6] at hb6
  simp only [isBytes, List.mem_cons, List.mem_singleton, forall_eq_or_imp, forall_eq,
    List.not_mem_nil, false_implies, implies_true, and_true] at hb4 hb6
  rw [e4, e6]
  have := addrLoop_closed id hid a0 a1 a2 a3 c0 c1 c2 c3 c4 c5 c6 c7 c8 c9 c10 c11 c12 c13 c14 c15
    hb4 ⟨hb6.2.2.2.2.2.2.2.2.1, hb6.2.2.2.2.2.2.2.2.2.1, hb6.2.2.2.2.2.2.2.2.2.2.1,
      hb6.2.2.2.2.2.2.2.2.2.2.2.1, hb6.2.2.2.2.2.2.2.2.2.2.2.2.1,
      hb6.2.2.2.2.2.2.2.2.2.2.2.2.2.1, hb6.2.2.2.2.2.2.2.2.2.2.2.2.2.2.1,
      hb6.2.2.2.2.2.2.2.2.2.2.2.2.2.2.2⟩
  simpa using this

/-- C4: for a 4-byte IPv4 base and a 16-byte IPv6 base, two distinct 32-bit ids for
which `generateIPAddr` succeeds get different IPv4 addresses and different IPv6
addresses. -/
theorem generateIPAddr_injective (v4Net v6Net : IPNet) (id1 id2 : Nat) (a4 a6 b4 b6 : IP)
    (h4 : v4Net.IP.length = 4) (h6 : v6Net.IP.length = 16)
    (hb4 : isBytes v4Net.IP) (hb6 : isBytes v6Net.IP)
    (hid1 : id1 < 2 ^ 32) (hid2 : id2 < 2 ^ 32) (hne : id1 ≠ id2)
    (h1 : generateIPAddr v4Net v6Net id1 = .ok (a4, a6))
    (h2 : generateIPAddr v4Net v6Net id2 = .ok (b4, b6)) :
    a4 ≠ b4 ∧ a6 ≠ b6 := by
  have l1 := ((generateIPAddr_ok_iff _ _ _ _ _).mp h1).1
  have l2 := ((generateIPAddr_ok_iff _ _ _ _ _).mp h2).1
  rw [addrLoop_closed_nets v4Net v6Net id1 hid1 h4 h6 hb4 hb6] at l1
  rw [addrLoop_closed_nets v4Net v6Net id2 hid2 h4 h6 hb4 hb6] at l2
  injection l1 with l1
  injection l2 with l2
  injection l1 with l1a l1b
  injection l2 with l2a l2b
  have m : ∀ x : Nat, x % 256 < 256 := fun x => Nat.mod_lt x (by norm_num)
  constructor
  · intro heq
    rw [← l1a, ← l2a] at heq
    simp only [List.cons.injEq, and_true] at heq
    obtain ⟨e3, e2, e1, e0⟩ := heq
    exact hne (id_of_chunks id1 id2 hid1 hid2
      (chunk4_inj _ _ _ (m _) (m _) e0) (chunk4_inj _ _ _ (m _) (m _) e1)
      (chunk4_inj _ _ _ (m _) (m _) e2) (chunk4_inj _ _ _ (m _) (m _) e3))
  · intro heq
    rw [← l1b, ← l2b] at heq
    have heq := List.append_cancel_left heq
    simp only [List.cons.injEq, and_true] at heq
    obtain ⟨e3h, e3l, e2h, e2l, e1h, e1l, e0h, e0l⟩ := heq
    exact hne (id_of_chunks id1 id2 hid1 hid2
      (chunk6_inj _ _ _ _ (m _) (m _) e0h e0l) (chunk6_inj _ _ _ _ (m _) (m _) e1h e1l)
      (chunk6_inj _ _ _ _ (m _) (m _) e2h e2l) (chunk6_inj _ _ _ _ (m _) (m _) e3h e3l))

theorem loop_test112 (id : Nat) (hid : id < 2 ^ 32) :
    addrLoop id ((netV4Test.IP.length : Int) - 1) ((netV6Test112.IP.length : Int) - 2)
        netV4Test.IP netV6Test112.IP =
      some ([(127 + id / 256 / 256 / 256 % 256) % 256, (10 + id / 256 / 256 % 256) % 256,
             id / 256 % 256, id % 256],
            [0xfe, 0x80, 0, 0, 0, 0, 0, 0,
             hexHi (id / 256 / 256 / 256 % 256), hexLo (id / 256 / 256 / 256 % 256),
             hexHi (id / 256 / 256 % 256), hexLo (id / 256 / 256 % 256),
             hexHi (id / 256 % 256), hexLo (id / 256 % 256),
             hexHi (id % 256), hexLo (id % 256)]) := by
  rw [addrLoop_closed_nets netV4Test netV6Test112 id hid rfl rfl (by decide) (by decide)]
  have m : ∀ x : Nat, x % 256 < 256 := fun x => Nat.mod_lt x (by norm_num)
  have hh : ∀ d : Nat, d < 256 → hexHi d % 256 = hexHi d := by
    intro d hd; rw [hexHi_eq d hd]; omega
  have hl : ∀ d : Nat, d < 256 → hexLo d % 256 = hexLo d := by
    intro d hd; rw [hexLo_eq d hd]; omega
  simp [netV4Test, netV6Test112, hh _ (m _), hl _ (m _)]

set_option maxRecDepth 100000 in
/-- The 16-bit group that the loop adds for a chunk, written in hexadecimal, is the
chunk written in decimal. -/
theorem hex_group_digits :
    ∀ d : Nat, d < 256 →
      Nat.toDigits 16 (256 * (d / 100) + (d % 10 + 16 * ((d / 10) % 10))) = Nat.toDigits 10 d := by
  decide

/-- C6: with 127.10.0.0/16 and fe80::/112, for every id in 1..254 `generateIPAddr`
succeeds; the IPv4 result is 127.10.0.id, whose low-order byte is `id mod 256`, and the
IPv6 result is fe80:: followed by the 16-bit group (bytes 14 and 15) whose hexadecimal
digits are the decimal digits of id. -/
theorem generateIPAddr_test_subnets (id : Nat) (h1 : 1 ≤ id) (h2 : id ≤ 254) :
    generateIPAddr netV4Test netV6Test112 id =
      .ok ([127, 10, 0, id % 256],
           [0xfe, 0x80, 0, 0, 0, 0, 0, 0, 0, 0, 0, 0, 0, 0, id / 100,
            id % 10 + 16 * ((id / 10) % 10)]) ∧
    id % 256 = id ∧
    Nat.toDigits 16 (256 * (id / 100) + (id % 10 + 16 * ((id / 10) % 10))) =
      Nat.toDigits 10 id := by
  have e0 : id % 256 = id := by omega
  refine ⟨?_, e0, hex_group_digits id (by omega)⟩
  rw [generateIPAddr_ok_iff, loop_test112 id (by norm_num; omega)]
  have e1 : id / 256 % 256 = 0 := by omega
  have e2 : id / 256 / 256 % 256 = 0 := by omega
  have e3 : id / 256 / 256 / 256 % 256 = 0 := by omega
  rw [e0, e1, e2, e3, hexHi_zero, hexLo_zero, hexHi_eq id (by omega), hexLo_eq id (by omega)]
  refine ⟨rfl, ?_, ?_, ?_, ?_⟩
  · simp [Contains, networkNumberAndMask, To4, netV4Test, List.range_succ]
  · simp [Equal, Mask, IPv4, v4InV6Prefix, netV4Test, List.range_succ, allFF]
  · simp [Contains, networkNumberAndMask, To4, netV6Test112, List.range_succ, isZeros]
  · right
    simp [IsLinkLocalUnicast, To4, isZeros]
    decide

/-- C6 at id 100: the results are 127.10.0.100 and fe80::100. -/
theorem generateIPAddr_test_subnets_witness :
    1 ≤ 100 ∧ 100 ≤ 254 ∧
    generateIPAddr netV4Test netV6Test112 100 =
      .ok ([127, 10, 0, 100], [0xfe, 0x80, 0, 0, 0, 0, 0, 0, 0, 0, 0, 0, 0, 0, 1, 0]) ∧
    Nat.toDigits 16 0x100 = Nat.toDigits 10 100 :=
  ⟨by decide, by decide, (generateIPAddr_test_subnets 100 (by decide) (by decide)).1,
    (generateIPAddr_test_subnets 100 (by decide) (by decide)).2.2⟩

theorem hex_zero_chunk (d : Nat) (hd : d < 256) (hhi : hexHi d = 0) (hlo : hexLo d = 0) :
    d = 0 := by
  rw [hexHi_eq d hd] at hhi
  rw [hexLo_eq d hd] at hlo
  omega

/-- C8: with 127.10.0.0/16 and fe80::/112, `generateIPAddr` fails with
`kErrIPLimitExceeds` for every 32-bit id from 256 on. -/
theorem generateIPAddr_test_exhausted (id : Nat) (h1 : 256 ≤ id) (h2 : id < 2 ^ 32) :
    generateIPAddr netV4Test netV6Test112 id = .err .kErrIPLimitExceeds := by
  rw [generateIPAddr_of_loop _ _ _ _ _ (loop_test112 id h2)]
  split
  · rfl
  · have m : ∀ x : Nat, x % 256 < 256 := fun x => Nat.mod_lt x (by norm_num)
    have hc : Contains netV6Test112 [0xfe, 0x80, 0, 0, 0, 0, 0, 0,
        hexHi (id / 256 / 256 / 256 % 256), hexLo (id / 256 / 256 / 256 % 256),
        hexHi (id / 256 / 256 % 256), hexLo (id / 256 / 256 % 256),
        hexHi (id / 256 % 256), hexLo (id / 256 % 256),
        hexHi (id % 256), hexLo (id % 256)] = false := by
      by_contra hcon
      simp [Contains, networkNumberAndMask, To4, netV6Test112, List.range_succ, isZeros,
        and_255] at hcon
      obtain ⟨a3, b3, a2, b2, a1, b1⟩ := hcon
      have hh : ∀ d : Nat, d < 256 → hexHi d % 256 = hexHi d := by
        intro d hd; rw [hexHi_eq d hd]; omega
      have hl : ∀ d : Nat, d < 256 → hexLo d % 256 = hexLo d := by
        intro d hd; rw [hexLo_eq d hd]; omega
      rw [hh _ (m _)] at a3 a2 a1
      rw [hl _ (m _)] at b3 b2 b1
      have z1 := hex_zero_chunk _ (m _) a1.symm b1.symm
      have z2 := hex_zero_chunk _ (m _) a2.symm b2.symm
      have z3 := hex_zero_chunk _ (m _) a3.symm b3.symm
      have h232 : (2 : Nat) ^ 32 = 4294967296 := by norm_num
      omega
    simp [hc]

/-- C8 at id 256, the id of the test. -/
theorem generateIPAddr_test_exhausted_witness :
    256 ≤ 256 ∧ 256 < 2 ^ 32 ∧
    generateIPAddr netV4Test netV6Test112 256 = .err .kErrIPLimitExceeds :=
  ⟨by decide, by decide, generateIPAddr_test_exhausted 256 (by decide) (by decide)⟩

theorem generateIPAddr_example_64_100 :
    generateIPAddr netV4Test netV6Test64 100 =
      .ok ([127, 10, 0, 100], [0xfe, 0x80, 0, 0, 0, 0, 0, 0, 0, 0, 0, 0, 0, 0, 1, 0]) := by
  rw [generateIPAddr_ok_iff]
  refine ⟨?_, by decide, by decide, by decide, by decide⟩
  rw [addrLoop_closed_nets netV4Test netV6Test64 100 (by norm_num) rfl rfl (by decide) (by decide)]
  decide

theorem generateIPAddr_example_64_256 :
    generateIPAddr netV4Test netV6Test64 256 =
      .ok ([127, 10, 1, 0], [0xfe, 0x80, 0, 0, 0, 0, 0, 0, 0, 0, 0, 0, 0, 1, 0, 0]) := by
  rw [generateIPAddr_ok_iff]
  refine ⟨?_, by decide, by decide, by decide, by decide⟩
  rw [addrLoop_closed_nets netV4Test netV6Test64 256 (by norm_num) rfl rfl (by decide) (by decide)]
  decide

/-- C4 at 127.10.0.0/16, fe80::/64 and the ids 100 and 256. -/
theorem generateIPAddr_injective_witness :
    netV4Test.IP.length = 4 ∧ netV6Test64.IP.length = 16 ∧
    isBytes netV4Test.IP ∧ isBytes netV6Test64.IP ∧
    100 < 2 ^ 32 ∧ 256 < 2 ^ 32 ∧ 100 ≠ 256 ∧
    generateIPAddr netV4Test netV6Test64 100 =
      .ok ([127, 10, 0, 100], [0xfe, 0x80, 0, 0, 0, 0, 0, 0, 0, 0, 0, 0, 0, 0, 1, 0]) ∧
    generateIPAddr netV4Test netV6Test64 256 =
      .ok ([127, 10, 1, 0], [0xfe, 0x80, 0, 0, 0, 0, 0, 0, 0, 0, 0, 0, 0, 1, 0, 0]) ∧
    ([127, 10, 0, 100] : IP) ≠ [127, 10, 1, 0] ∧
    ([0xfe, 0x80, 0, 0, 0, 0, 0, 0, 0, 0, 0, 0, 0, 0, 1, 0] : IP) ≠
      [0xfe, 0x80, 0, 0, 0, 0, 0, 0, 0, 0, 0, 0, 0, 1, 0, 0] :=
  ⟨rfl, rfl, by decide, by decide, by decide, by decide, by decide,
    generateIPAddr_example_64_100, generateIPAddr_example_64_256,
    generateIPAddr_injective netV4Test netV6Test64 100 256 _ _ _ _ rfl rfl (by decide)
      (by decide) (by decide) (by decide) (by decide)
      generateIPAddr_example_64_100 generateIPAddr_example_64_256⟩

/-- C7 as stated fails: with 127.10.0.0/16 and fe80::/64 (whose base has all host bytes
zero), id 256 succeeds with the IPv6 address fe80::1:0; the offset from the base is
0x10000, whose hexadecimal digits are `10000`, not the decimal digits `256`. -/
theorem generateIPAddr_suffix_not_decimal :
    hostBitsZero netV6Test64 ∧
    generateIPAddr netV4Test netV6Test64 256 =
      .ok ([127, 10, 1, 0], [0xfe, 0x80, 0, 0, 0, 0, 0, 0, 0, 0, 0, 0, 0, 1, 0, 0]) ∧
    Nat.toDigits 16 (ipToNat [0xfe, 0x80, 0, 0, 0, 0, 0, 0, 0, 0, 0, 0, 0, 1, 0, 0]
      - ipToNat netV6Test64.IP) = ['1', '0', '0', '0', '0'] ∧
    Nat.toDigits 10 256 = ['2', '5', '6'] := by
  refine ⟨by decide, ?_, by decide, by decide⟩
  rw [generateIPAddr_ok_iff]
  refine ⟨?_, by decide, by decide, by decide, by decide⟩
  rw [addrLoop_closed_nets netV4Test netV6Test64 256 (by norm_num) rfl rfl (by decide) (by decide)]
  decide

theorem to4_sixteen (c0 c1 c2 c3 c4 c5 c6 c7 c8 c9 c10 c11 c12 c13 c14 c15 : Nat) :
    To4 [c0, c1, c2, c3, c4, c5, c6, c7, c8, c9, c10, c11, c12, c13, c14, c15] =
      if isZeros [c0, c1, c2, c3, c4, c5, c6, c7, c8, c9] = true ∧ c10 = 255 ∧ c11 = 255
      then some [c12, c13, c14, c15] else none := by
  unfold To4
  rw [if_neg (by simp)]
  by_cases hz : isZeros [c0, c1, c2, c3, c4, c5, c6, c7, c8, c9] = true ∧ c10 = 255 ∧ c11 = 255
  · rw [if_pos hz]
    exact if_pos ⟨rfl, hz.1, hz.2.1, hz.2.2⟩
  · rw [if_neg hz]
    exact if_neg (fun hc => hz ⟨hc.2.1, hc.2.2.1, hc.2.2.2⟩)

theorem contains_last_two
    (c0 c1 c2 c3 c4 c5 c6 c7 c8 c9 c10 c11 c12 c13 c14 c15 : Nat)
    (m0 m1 m2 m3 m4 m5 m6 m7 m8 m9 m10 m11 m12 m13 m14 m15 x y : Nat)
    (h : Contains ⟨[c0, c1, c2, c3, c4, c5, c6, c7, c8, c9, c10, c11, c12, c13, c14, c15],
        [m0, m1, m2, m3, m4, m5, m6, m7, m8, m9, m10, m11, m12, m13, m14, m15]⟩
      [c0, c1, c2, c3, c4, c5, c6, c7, c8, c9, c10, c11, c12, c13, x, y] = true) :
    c14 &&& m14 = x &&& m14 ∧ c15 &&& m15 = y &&& m15 := by
  unfold Contains networkNumberAndMask at h
  simp only [to4_sixteen] at h
  by_cases hz : isZeros [c0, c1, c2, c3, c4, c5, c6, c7, c8, c9] = true ∧ c10 = 255 ∧ c11 = 255
  · simp only [if_pos hz] at h
    simp [List.range_succ] at h
    exact h
  · simp only [if_neg hz] at h
    simp [List.range_succ] at h
    exact h

theorem ipToNat_sixteen (c0 c1 c2 c3 c4 c5 c6 c7 c8 c9 c10 c11 c12 c13 x y : Nat) :
    ipToNat [c0, c1, c2, c3, c4, c5, c6, c7, c8, c9, c10, c11, c12, c13, x, y] =
      ipToNat [c0, c1, c2, c3, c4, c5, c6, c7, c8, c9, c10, c11, c12, c13] * 65536 +
        (256 * x + y) := by
  simp only [ipToNat, List.foldl]
  ring

/-- C7, amended: for a 4-byte IPv4 base and an IPv6 subnet with a 16-byte base and mask
whose base has no host bit set, and every id below 256 for which `generateIPAddr`
succeeds, the offset of the IPv6 result from the IPv6 base, written in hexadecimal, has
exactly the digits of id written in decimal. -/
theorem generateIPAddr_suffix_decimal (v4Net v6Net : IPNet) (id : Nat) (v4 v6 : IP)
    (h4 : v4Net.IP.length = 4) (h6 : v6Net.IP.length = 16) (hm6 : v6Net.Mask.length = 16)
    (hb4 : isBytes v4Net.IP) (hb6 : isBytes v6Net.IP)
    (hhost : hostBitsZero v6Net) (hid : id < 256)
    (h : generateIPAddr v4Net v6Net id = .ok (v4, v6)) :
    Nat.toDigits 16 (ipToNat v6 - ipToNat v6Net.IP) = Nat.toDigits 10 id := by
  obtain ⟨hl, _, _, hcont, _⟩ := (generateIPAddr_ok_iff _ _ _ _ _).mp h
  rw [addrLoop_closed_nets v4Net v6Net id (by norm_num; omega) h4 h6 hb4 hb6] at hl
  injection hl with hl
  injection hl with _ hv6
  obtain ⟨ip, mask⟩ := v6Net
  simp only at h6 hm6 hb6 hhost hcont hv6 ⊢
  obtain ⟨c0, c1, c2, c3, c4, c5, c6, c7, c8, c9, c10, c11, c12, c13, c14, c15, e6⟩ :=
    length_sixteen _ h6
  obtain ⟨m0, m1, m2, m3, m4, m5, m6, m7, m8, m9, m10, m11, m12, m13, m14, m15, em⟩ :=
    length_sixteen _ hm6
  subst e6; subst em
  have e0 : id % 256 = id := by omega
  have e1 : id / 256 % 256 = 0 := by omega
  have e2 : id / 256 / 256 % 256 = 0 := by omega
  have e3 : id / 256 / 256 / 256 % 256 = 0 := by omega
  rw [e0, e1, e2, e3, hexHi_zero, hexLo_zero, hexHi_eq id hid, hexLo_eq id hid] at hv6
  simp only [isBytes, List.mem_cons, List.mem_singleton, forall_eq_or_imp, forall_eq,
    List.not_mem_nil, false_implies, implies_true, and_true] at hb6
  obtain ⟨_, _, _, _, _, _, _, _, b8, b9, b10, b11, b12, b13, b14, b15⟩ := hb6
  have hv : v6 = [c0, c1, c2, c3, c4, c5, c6, c7, c8, c9, c10, c11, c12, c13,
      (c14 + id / 100) % 256, (c15 + (id % 10 + 16 * ((id / 10) % 10))) % 256] := by
    rw [← hv6]
    simp
    omega
  subst hv
  obtain ⟨k14, k15⟩ := contains_last_two _ _ _ _ _ _ _ _ _ _ _ _ _ _ _ _ _ _ _ _ _ _ _ _
    _ _ _ _ _ _ _ _ _ _ hcont
  have g14 : c14 &&& m14 = c14 := hhost 14 (by simp)
  have g15 : c15 &&& m15 = c15 := hhost 15 (by simp)
  have l14 : c14 ≤ (c14 + id / 100) % 256 := by
    have := @Nat.and_le_left ((c14 + id / 100) % 256) m14
    rw [← k14, g14] at this
    exact this
  have l15 : c15 ≤ (c15 + (id % 10 + 16 * ((id / 10) % 10))) % 256 := by
    have := @Nat.and_le_left ((c15 + (id % 10 + 16 * ((id / 10) % 10))) % 256) m15
    rw [← k15, g15] at this
    exact this
  have hhi : id / 100 ≤ 2 := by omega
  have hlo : id % 10 + 16 * ((id / 10) % 10) ≤ 153 := by omega
  generalize ehi : id / 100 = hi at l14 hhi ⊢
  generalize elo : id % 10 + 16 * ((id / 10) % 10) = lo at l15 hlo ⊢
  have w14 : (c14 + hi) % 256 = c14 + hi := by omega
  have w15 : (c15 + lo) % 256 = c15 + lo := by omega
  rw [ipToNat_sixteen, ipToNat_sixteen, w14, w15]
  generalize ipToNat [c0, c1, c2, c3, c4, c5, c6, c7, c8, c9, c10, c11, c12, c13] = base
  have hoff : base * 65536 + (256 * (c14 + hi) + (c15 + lo)) -
      (base * 65536 + (256 * c14 + c15)) = 256 * hi + lo := by
    omega
  rw [hoff]
  rw [← ehi, ← elo]
  exact hex_group_digits id hid

/-- C7 amended, at 127.10.0.0/16, fe80::/64 and id 100: the offset is 0x100. -/
theorem generateIPAddr_suffix_decimal_witness :
    netV4Test.IP.length = 4 ∧ netV6Test64.IP.length = 16 ∧ netV6Test64.Mask.length = 16 ∧
    isBytes netV4Test.IP ∧ isBytes netV6Test64.IP ∧ hostBitsZero netV6Test64 ∧ 100 < 256 ∧
    generateIPAddr netV4Test netV6Test64 100 =
      .ok ([127, 10, 0, 100], [0xfe, 0x80, 0, 0, 0, 0, 0, 0, 0, 0, 0, 0, 0, 0, 1, 0]) ∧
    Nat.toDigits 16 (ipToNat [0xfe, 0x80, 0, 0, 0, 0, 0, 0, 0, 0, 0, 0, 0, 0, 1, 0]
      - ipToNat netV6Test64.IP) = Nat.toDigits 10 100 :=
  ⟨rfl, rfl, rfl, by decide, by decide, by decide, by decide, generateIPAddr_example_64_100,
    generateIPAddr_suffix_decimal netV4Test netV6Test64 100 _ _ rfl rfl rfl (by decide)
      (by decide) (by decide) (by decide) generateIPAddr_example_64_100⟩

theorem countOnes_mask : ∀ k : Nat, k < 8 → ∀ acc : Int,
    countOnes (255 - (0xff >>> k)) acc = (0, acc + k) := by
  intro k hk acc
  interval_cases k <;> simp [countOnes] <;> ring

theorem cidrMaskLoop_zero (l : Nat) : ∀ b ∈ cidrMaskLoop l 0, b = 0 := by
  induction l with
  | zero => intro b hb; simp [cidrMaskLoop] at hb
  | succ l ih =>
    intro b hb
    simp [cidrMaskLoop] at hb
    rcases hb with hb | hb
    · exact hb
    · exact ih b hb

theorem cidrMaskLoop_length (l : Nat) : ∀ n, (cidrMaskLoop l n).length = l := by
  induction l with
  | zero => intro n; simp [cidrMaskLoop]
  | succ l ih =>
    intro n
    unfold cidrMaskLoop
    split <;> simp [ih]

theorem simpleMaskLengthFrom_cidr (l : Nat) : ∀ (n : Nat) (acc : Int), n ≤ 8 * l →
    simpleMaskLengthFrom acc (cidrMaskLoop l n) = acc + n := by
  induction l with
  | zero =>
    intro n acc hn
    have : n = 0 := by omega
    subst this
    simp [cidrMaskLoop, simpleMaskLengthFrom]
  | succ l ih =>
    intro n acc hn
    unfold cidrMaskLoop
    by_cases h8 : n ≥ 8
    · simp only [h8, if_true, simpleMaskLengthFrom]
      rw [ih (n - 8) (acc + 8) (by omega)]
      omega
    · simp only [h8, if_false]
      have hk : n < 8 := by omega
      have hne : 255 - (0xff >>> n) ≠ 0xff := by
        interval_cases n <;> decide
      unfold simpleMaskLengthFrom
      simp only [hne, if_false, countOnes_mask n hk acc]
      have hz : (cidrMaskLoop l 0).any (fun b => b != 0) = false := by
        rw [List.any_eq_false]
        intro b hb
        simp [cidrMaskLoop_zero l b hb]
      simp [hz]

theorem size_cidrMaskLoop (l n : Nat) (hn : n ≤ 8 * l) :
    Size (cidrMaskLoop l n) = ((n : Int), (l : Int) * 8) := by
  unfold Size simpleMaskLength
  rw [simpleMaskLengthFrom_cidr l n 0 hn, cidrMaskLoop_length]
  have : ¬ ((0 : Int) + (n : Int) = -1) := by omega
  simp only [this, if_false]
  simp

theorem cidrMask_v4 (n : Nat) (hn : (n : Int) ≤ 32) : CIDRMask (n : Int) 32 = cidrMaskLoop 4 n := by
  unfold CIDRMask
  have h1 : ¬ ((32 : Int) ≠ 8 * 4 ∧ (32 : Int) ≠ 8 * 16) := by norm_num
  have h2 : ¬ ((n : Int) < 0 ∨ (n : Int) > 32) := by omega
  simp only [h1, h2, if_false]
  norm_num
  rfl

theorem cidrMask_v6 (n : Nat) (hn : (n : Int) ≤ 128) :
    CIDRMask (n : Int) 128 = cidrMaskLoop 16 n := by
  unfold CIDRMask
  have h1 : ¬ ((128 : Int) ≠ 8 * 4 ∧ (128 : Int) ≠ 8 * 16) := by norm_num
  have h2 : ¬ ((n : Int) < 0 ∨ (n : Int) > 128) := by omega
  simp only [h1, h2, if_false]
  norm_num
  rfl

theorem bigEndian_length (k a : Nat) : (bigEndian k a).length = k := by
  simp [bigEndian]

theorem mask_v4 (a : Nat) (m : IPMask) (hm : m.length = 4) :
    Mask (Addr.ip4 a).As16 m =
      (List.range 4).map (fun i => (bigEndian 4 a).getD i 0 &&& m.getD i 0) := by
  unfold Mask Addr.As16
  have hl : (v4InV6Prefix ++ bigEndian 4 a).length = 16 := by
    simp [v4InV6Prefix, bigEndian_length]
  have ht : (v4InV6Prefix ++ bigEndian 4 a).take 12 = v4InV6Prefix := by
    simp [v4InV6Prefix]
  have hd : (v4InV6Prefix ++ bigEndian 4 a).drop 12 = bigEndian 4 a := by
    simp [v4InV6Prefix]
  simp [hm, hl, ht, hd, bigEndian_length]

theorem mask_v6 (a : Nat) (z : String) (m : IPMask) (hm : m.length = 16) :
    Mask (Addr.ip6 a z).As16 m =
      (List.range 16).map (fun i => (bigEndian 16 a).getD i 0 &&& m.getD i 0) := by
  unfold Mask Addr.As16
  simp [hm, bigEndian_length]

/-- The shape of what `ParseCIDR` returns: the mask is the CIDR mask of a prefix length
`n` over `l = 4` or `l = 16` bytes, and the network number is a byte slice masked with
it. -/
theorem parseCIDR_shape (ParseAddr : String → Option Addr) (s : String) (ip : IP)
    (net : IPNet) (h : ParseCIDR ParseAddr s = some (ip, net)) :
    ∃ (l n : Nat) (src : List Nat), (l = 4 ∨ l = 16) ∧ n ≤ 8 * l ∧ src.length = l ∧
      isBytes src ∧ net.Mask = cidrMaskLoop l n ∧
      net.IP = (List.range l).map (fun i => src.getD i 0 &&& (cidrMaskLoop l n).getD i 0) := by
  unfold ParseCIDR at h
  split at h
  · cases h
  · rename_i addr c mask _
    split at h
    · cases h
    · rename_i ipAddr _
      split at h
      · cases h
      · dsimp only at h
        split at h
        · cases h
        · rename_i hz hc
          simp only [Bool.or_eq_true, Bool.not_eq_true', decide_eq_true_eq, not_or, not_lt,
            Bool.not_eq_false, not_not, ne_eq] at hc
          injection h with h
          injection h with _ hnet
          subst hnet
          have hbe : ∀ k a, isBytes (bigEndian k a) := by
            intro k a b hb
            simp only [bigEndian, List.mem_map] at hb
            obtain ⟨i, _, rfl⟩ := hb
            exact Nat.mod_lt _ (by norm_num)
          cases ipAddr with
          | ip4 a =>
            have hle : ((dtoi mask).1 : Int) ≤ 32 := hc.2
            refine ⟨4, (dtoi mask).1, bigEndian 4 a, Or.inl rfl, by omega, bigEndian_length _ _,
              hbe _ _, ?_, ?_⟩
            · simp only [Addr.BitLen]; exact cidrMask_v4 _ hle
            · simp only [Addr.BitLen]
              rw [cidrMask_v4 _ hle, mask_v4 _ _ (cidrMaskLoop_length _ _)]
          | ip6 a z =>
            have hle : ((dtoi mask).1 : Int) ≤ 128 := hc.2
            refine ⟨16, (dtoi mask).1, bigEndian 16 a, Or.inr rfl, by omega,
              bigEndian_length _ _, hbe _ _, ?_, ?_⟩
            · simp only [Addr.BitLen]; exact cidrMask_v6 _ hle
            · simp only [Addr.BitLen]
              rw [cidrMask_v6 _ hle, mask_v6 _ _ _ (cidrMaskLoop_length _ _)]

/-! ### The gateway resolver -/

theorem cidrMaskLoop_allFF (l : Nat) : ∀ n, n ≤ 8 * l →
    ((∀ b ∈ cidrMaskLoop l n, b = 0xff) ↔ n = 8 * l) := by
  induction l with
  | zero =>
    intro n hn
    simp [cidrMaskLoop]
    omega
  | succ l ih =>
    intro n hn
    unfold cidrMaskLoop
    by_cases h8 : n ≥ 8
    · simp only [h8, if_true, List.mem_cons, forall_eq_or_imp, true_and]
      rw [ih (n - 8) (by omega)]
      omega
    · simp only [h8, if_false, List.mem_cons, forall_eq_or_imp]
      have hk : n < 8 := by omega
      have hne : 255 - (0xff >>> n) ≠ 0xff := by
        interval_cases n <;> decide
      constructor
      · intro h; exact absurd h.1 hne
      · intro h; omega

/-- What `calcDefaultGateway` does once `ParseCIDR` has returned a network whose mask is
the CIDR mask of prefix length `n` over `l` bytes: an error when `n` is the full width,
and otherwise the network number with the low bit of its last byte set. -/
theorem calcDefaultGateway_of_parse (ParseAddr : String → Option Addr) (s : String)
    (ip : IP) (net : IPNet) (l n : Nat) (hn : n ≤ 8 * l)
    (h : ParseCIDR ParseAddr s = some (ip, net)) (hm : net.Mask = cidrMaskLoop l n)
    (hlen : net.IP.length = l) :
    calcDefaultGateway ParseAddr s =
      if n = 8 * l then .err .notANetwork
      else .ok (net.IP.set (l - 1) (net.IP.getD (l - 1) 0 ||| 1), net) := by
  unfold calcDefaultGateway
  rw [h]
  simp only [hm, size_cidrMaskLoop l n hn]
  by_cases hfull : n = 8 * l
  · have : (l : Int) * 8 - (n : Int) = 0 := by omega
    rw [if_pos this, if_pos hfull]
  · have : ¬ ((l : Int) * 8 - (n : Int) = 0) := by omega
    rw [if_neg this, if_neg hfull]
    have hpos : (0 : Int) ≤ (l : Int) - 1 ∧ (l : Int) - 1 < (l : Int) := by omega
    have hidx : ((l : Int) - 1).toNat = l - 1 := by omega
    simp only [cloneIP, orAt, hlen, hpos, and_self, if_true, hidx]

theorem parseCIDR_none (ParseAddr : String → Option Addr) (s : String)
    (h : ParseCIDR ParseAddr s = none) :
    calcDefaultGateway ParseAddr s = .err .parseError := by
  unfold calcDefaultGateway
  rw [h]

theorem parseCIDR_eval (ParseAddr : String → Option Addr) (s : String)
    (addr mask : List Char) (a : Addr) (n : Nat)
    (hs : s.toList.span (fun c => c != '/') = (addr, '/' :: mask))
    (ha : ParseAddr (String.mk addr) = some a) (hz : a.Zone = "")
    (hd : dtoi mask = (n, mask.length, true)) (hn : (n : Int) ≤ a.BitLen) :
    ParseCIDR ParseAddr s =
      some (a.As16, ⟨Mask a.As16 (CIDRMask n a.BitLen), CIDRMask n a.BitLen⟩) := by
  unfold ParseCIDR
  rw [hs]
  simp only [ha, hz, hd]
  have : ¬ ((n : Int) > a.BitLen) := by omega
  simp [this]

theorem cidrMaskLoop_last_even (l : Nat) : ∀ n, n < 8 * l →
    (cidrMaskLoop l n).getD (l - 1) 0 % 2 = 0 := by
  induction l with
  | zero => intro n hn; omega
  | succ l ih =>
    intro n hn
    unfold cidrMaskLoop
    rcases Nat.eq_zero_or_pos l with h0 | hpos
    · subst h0
      have hk : n < 8 := by omega
      have h8 : ¬ (n ≥ 8) := by omega
      simp only [h8, if_false]
      interval_cases n <;> decide
    · obtain ⟨k, rfl⟩ : ∃ k, l = k + 1 := ⟨l - 1, by omega⟩
      by_cases h8 : n ≥ 8
      · simp only [h8, if_true]
        have := ih (n - 8) (by omega)
        simpa using this
      · simp only [h8, if_false]
        have := ih 0 (by omega)
        simpa using this

set_option maxRecDepth 100000 in
theorem byte_or_one : ∀ c : Nat, c < 256 → c % 2 = 0 → c ||| 1 = c + 1 := by
  decide

theorem and_even (x m : Nat) (hm : m % 2 = 0) : (x &&& m) % 2 = 0 := by
  rw [← Nat.and_one_is_mod, Nat.and_assoc, Nat.and_one_is_mod, hm, Nat.and_zero]

theorem or_one_and_even (c m : Nat) (hm : m % 2 = 0) : (c ||| 1) &&& m = c &&& m := by
  rw [Nat.and_distrib_right, Nat.and_comm 1 m, Nat.and_one_is_mod, hm, Nat.or_zero]

theorem gateway_facts4 (c0 c1 c2 c3 m0 m1 m2 m3 : Nat) (hc : c3 < 256) (hce : c3 % 2 = 0)
    (hm : m3 % 2 = 0) :
    ipToNat [c0, c1, c2, c3 ||| 1] = ipToNat [c0, c1, c2, c3] + 1 ∧
    [c0, c1, c2, c3 ||| 1] ≠ [c0, c1, c2, c3] ∧
    Contains ⟨[c0, c1, c2, c3], [m0, m1, m2, m3]⟩ [c0, c1, c2, c3 ||| 1] = true := by
  have h1 := byte_or_one c3 hc hce
  refine ⟨?_, ?_, ?_⟩
  · rw [h1]; simp only [ipToNat, List.foldl]; ring
  · rw [h1]; simp
  · simp [Contains, networkNumberAndMask, To4, List.range_succ, or_one_and_even c3 m3 hm]

theorem gateway_facts16 (c0 c1 c2 c3 c4 c5 c6 c7 c8 c9 c10 c11 c12 c13 c14 c15 : Nat)
    (m0 m1 m2 m3 m4 m5 m6 m7 m8 m9 m10 m11 m12 m13 m14 m15 : Nat)
    (hc : c15 < 256) (hce : c15 % 2 = 0) (hm : m15 % 2 = 0) :
    ipToNat [c0, c1, c2, c3, c4, c5, c6, c7, c8, c9, c10, c11, c12, c13, c14, c15 ||| 1] =
      ipToNat [c0, c1, c2, c3, c4, c5, c6, c7, c8, c9, c10, c11, c12, c13, c14, c15] + 1 ∧
    [c0, c1, c2, c3, c4, c5, c6, c7, c8, c9, c10, c11, c12, c13, c14, c15 ||| 1] ≠
      [c0, c1, c2, c3, c4, c5, c6, c7, c8, c9, c10, c11, c12, c13, c14, c15] ∧
    Contains ⟨[c0, c1, c2, c3, c4, c5, c6, c7, c8, c9, c10, c11, c12, c13, c14, c15],
        [m0, m1, m2, m3, m4, m5, m6, m7, m8, m9, m10, m11, m12, m13, m14, m15]⟩
      [c0, c1, c2, c3, c4, c5, c6, c7, c8, c9, c10, c11, c12, c13, c14, c15 ||| 1] = true := by
  have h1 := byte_or_one c15 hc hce
  refine ⟨?_, ?_, ?_⟩
  · rw [h1, ipToNat_sixteen, ipToNat_sixteen]; ring
  · rw [h1]; simp
  · unfold Contains networkNumberAndMask
    simp only [to4_sixteen]
    by_cases hz : isZeros [c0, c1, c2, c3, c4, c5, c6, c7, c8, c9] = true ∧ c10 = 255 ∧ c11 = 255
    · simp only [if_pos hz]
      simp [List.range_succ, or_one_and_even c15 m15 hm]
    · simp only [if_neg hz]
      simp [List.range_succ, or_one_and_even c15 m15 hm]

theorem calcDefaultGateway_error_cases (ParseAddr : String → Option Addr) (cidr : String) :
    ((∃ e, calcDefaultGateway ParseAddr cidr = .err e) ↔
      (ParseCIDR ParseAddr cidr = none ∨
        ∃ ip net, ParseCIDR ParseAddr cidr = some (ip, net) ∧ ∀ b ∈ net.Mask, b = 0xff)) ∧
    ((¬ ∃ e, calcDefaultGateway ParseAddr cidr = .err e) →
      ∃ gw net, calcDefaultGateway ParseAddr cidr = .ok (gw, net)) := by
  cases hp : ParseCIDR ParseAddr cidr with
  | none =>
    have hc := parseCIDR_none ParseAddr cidr hp
    refine ⟨⟨fun _ => Or.inl rfl, fun _ => ⟨_, hc⟩⟩, fun hno => absurd ⟨_, hc⟩ hno⟩
  | some p =>
    obtain ⟨ip, net⟩ := p
    obtain ⟨l, n, src, hl, hn, hsrc, _, hm, hip⟩ := parseCIDR_shape ParseAddr cidr ip net hp
    have hlen : net.IP.length = l := by rw [hip]; simp
    have hc := calcDefaultGateway_of_parse ParseAddr cidr ip net l n hn hp hm hlen
    have hff := cidrMaskLoop_allFF l n hn
    by_cases hfull : n = 8 * l
    · rw [if_pos hfull] at hc
      refine ⟨⟨fun _ => Or.inr ⟨ip, net, rfl, ?_⟩, fun _ => ⟨_, hc⟩⟩,
        fun hno => absurd ⟨_, hc⟩ hno⟩
      rw [hm]; exact hff.mpr hfull
    · rw [if_neg hfull] at hc
      refine ⟨⟨?_, ?_⟩, fun _ => ⟨_, _, hc⟩⟩
      · rintro ⟨e, he⟩
        rw [hc] at he
        cases he
      · rintro (hnone | ⟨ip2, net2, h2, hall⟩)
        · cases hnone
        · injection h2 with h2
          injection h2 with _ h2
          subst h2
          rw [hm] at hall
          exact absurd (hff.mp hall) hfull

theorem calcDefaultGateway_v4_eval (ParseAddr : String → Option Addr) (s : String)
    (addr mask : List Char) (a n : Nat)
    (hs : s.toList.span (fun c => c != '/') = (addr, '/' :: mask))
    (ha : ParseAddr (String.mk addr) = some (.ip4 a))
    (hd : dtoi mask = (n, mask.length, true)) (hn : n ≤ 32) :
    calcDefaultGateway ParseAddr s =
      if n = 32 then .err .notANetwork
      else .ok ((Mask (Addr.ip4 a).As16 (cidrMaskLoop 4 n)).set 3
          ((Mask (Addr.ip4 a).As16 (cidrMaskLoop 4 n)).getD 3 0 ||| 1),
        ⟨Mask (Addr.ip4 a).As16 (cidrMaskLoop 4 n), cidrMaskLoop 4 n⟩) := by
  have hle : (n : Int) ≤ (Addr.ip4 a).BitLen := by simp only [Addr.BitLen]; omega
  have hp := parseCIDR_eval ParseAddr s addr mask (.ip4 a) n hs ha rfl hd hle
  simp only [Addr.BitLen] at hp
  rw [cidrMask_v4 n (by omega)] at hp
  have hlen : (Mask (Addr.ip4 a).As16 (cidrMaskLoop 4 n)).length = 4 := by
    rw [mask_v4 _ _ (cidrMaskLoop_length _ _)]; simp
  have := calcDefaultGateway_of_parse ParseAddr s _ _ 4 n (by omega) hp rfl hlen
  rw [this]

theorem calcDefaultGateway_v6_eval (ParseAddr : String → Option Addr) (s : String)
    (addr mask : List Char) (a n : Nat)
    (hs : s.toList.span (fun c => c != '/') = (addr, '/' :: mask))
    (ha : ParseAddr (String.mk addr) = some (.ip6 a ""))
    (hd : dtoi mask = (n, mask.length, true)) (hn : n ≤ 128) :
    calcDefaultGateway ParseAddr s =
      if n = 128 then .err .notANetwork
      else .ok ((Mask (Addr.ip6 a "").As16 (cidrMaskLoop 16 n)).set 15
          ((Mask (Addr.ip6 a "").As16 (cidrMaskLoop 16 n)).getD 15 0 ||| 1),
        ⟨Mask (Addr.ip6 a "").As16 (cidrMaskLoop 16 n), cidrMaskLoop 16 n⟩) := by
  have hle : (n : Int) ≤ (Addr.ip6 a "").BitLen := by simp only [Addr.BitLen]; omega
  have hp := parseCIDR_eval ParseAddr s addr mask (.ip6 a "") n hs ha rfl hd hle
  simp only [Addr.BitLen] at hp
  rw [cidrMask_v6 n (by omega)] at hp
  have hlen : (Mask (Addr.ip6 a "").As16 (cidrMaskLoop 16 n)).length = 16 := by
    rw [mask_v6 _ _ _ (cidrMaskLoop_length _ _)]; simp
  have := calcDefaultGateway_of_parse ParseAddr s _ _ 16 n (by omega) hp rfl hlen
  rw [this]

/-- C9: `calcDefaultGateway` returns an error exactly when the string does not parse as
a CIDR or the parsed network has zero host bits (every bit of its mask is set); in
every other case it returns a gateway and a network. The IPv4 /32 and the IPv6 /128 of
the tests are rejected. -/
theorem calcDefaultGateway_error_iff :
    (∀ (ParseAddr : String → Option Addr) (cidr : String),
      ((∃ e, calcDefaultGateway ParseAddr cidr = .err e) ↔
        (ParseCIDR ParseAddr cidr = none ∨
          ∃ ip net, ParseCIDR ParseAddr cidr = some (ip, net) ∧ ∀ b ∈ net.Mask, b = 0xff)) ∧
      ((¬ ∃ e, calcDefaultGateway ParseAddr cidr = .err e) →
        ∃ gw net, calcDefaultGateway ParseAddr cidr = .ok (gw, net))) ∧
    (∀ (ParseAddr : String → Option Addr) (a : Nat),
      ParseAddr "127.168.128.0" = some (.ip4 a) →
      calcDefaultGateway ParseAddr "127.168.128.0/32" = .err .notANetwork) ∧
    (∀ (ParseAddr : String → Option Addr) (a : Nat),
      ParseAddr "fe80:1234:1234:1234::" = some (.ip6 a "") →
      calcDefaultGateway ParseAddr "fe80:1234:1234:1234::/128" = .err .notANetwork) := by
  refine ⟨calcDefaultGateway_error_cases, ?_, ?_⟩
  · intro P a ha
    rw [calcDefaultGateway_v4_eval P "127.168.128.0/32" "127.168.128.0".toList "32".toList a 32
      (by decide) ha (by decide) (by decide)]
    rfl
  · intro P a ha
    rw [calcDefaultGateway_v6_eval P "fe80:1234:1234:1234::/128"
      "fe80:1234:1234:1234::".toList "128".toList a 128 (by decide) ha (by decide) (by decide)]
    rfl

/-- C9 with the addresses of the tests: the /32 is rejected, the /18 is accepted. -/
theorem calcDefaultGateway_error_iff_witness :
    testParseAddr "127.168.128.0" = some (.ip4 0x7FA88000) ∧
    calcDefaultGateway testParseAddr "127.168.128.0/32" = .err .notANetwork ∧
    ((∃ e, calcDefaultGateway testParseAddr "127.168.128.0/32" = .err e) ↔
      (ParseCIDR testParseAddr "127.168.128.0/32" = none ∨
        ∃ ip net, ParseCIDR testParseAddr "127.168.128.0/32" = some (ip, net) ∧
          ∀ b ∈ net.Mask, b = 0xff)) :=
  ⟨by decide, calcDefaultGateway_error_iff.2.1 testParseAddr 0x7FA88000 (by decide),
    (calcDefaultGateway_error_iff.1 testParseAddr "127.168.128.0/32").1⟩

theorem getD_map_range (l : Nat) (f : Nat → Nat) (i : Nat) (hi : i < l) :
    ((List.range l).map f).getD i 0 = f i := by
  simp [List.getD_eq_getElem?_getD, List.getElem?_map, List.getElem?_range hi]

/-- The general part of C10: the gateway that `calcDefaultGateway` returns is the
network number with the low bit of its last byte set; that bit is clear in the network
number, so the gateway is the network number plus one, differs from it, and is
contained in the network. -/
theorem calcDefaultGateway_gateway (ParseAddr : String → Option Addr) (cidr : String)
    (gw : IP) (net : IPNet) (h : calcDefaultGateway ParseAddr cidr = .ok (gw, net)) :
    0 < net.IP.length ∧
    gw = net.IP.set (net.IP.length - 1) (net.IP.getD (net.IP.length - 1) 0 ||| 1) ∧
    net.IP.getD (net.IP.length - 1) 0 % 2 = 0 ∧
    ipToNat gw = ipToNat net.IP + 1 ∧ gw ≠ net.IP ∧ Contains net gw = true := by
  cases hp : ParseCIDR ParseAddr cidr with
  | none =>
    rw [parseCIDR_none ParseAddr cidr hp] at h
    cases h
  | some p =>
    obtain ⟨ip, net1⟩ := p
    obtain ⟨l, n, src, hl, hn, hsrc, hbytes, hm, hip⟩ :=
      parseCIDR_shape ParseAddr cidr ip net1 hp
    have hlen : net1.IP.length = l := by rw [hip]; simp
    rw [calcDefaultGateway_of_parse ParseAddr cidr ip net1 l n hn hp hm hlen] at h
    by_cases hfull : n = 8 * l
    · rw [if_pos hfull] at h; cases h
    · rw [if_neg hfull] at h
      injection h with h
      injection h with hgw hnet
      subst hnet
      have hl0 : 0 < l := by omega
      have hmeven : (cidrMaskLoop l n).getD (l - 1) 0 % 2 = 0 :=
        cidrMaskLoop_last_even l n (by omega)
      have hlast : net1.IP.getD (l - 1) 0 =
          src.getD (l - 1) 0 &&& (cidrMaskLoop l n).getD (l - 1) 0 := by
        rw [hip]
        exact getD_map_range l _ (l - 1) (by omega)
      have hceven : net1.IP.getD (l - 1) 0 % 2 = 0 := by
        rw [hlast]; exact and_even _ _ hmeven
      have hclt : net1.IP.getD (l - 1) 0 < 256 := by
        rw [hlast]
        have h1 : src.getD (l - 1) 0 < 256 := by
          have hmem : src.getD (l - 1) 0 ∈ src := by
            rw [List.getD_eq_getElem?_getD, List.getElem?_eq_getElem (by omega)]
            simp
          exact hbytes _ hmem
        exact lt_of_le_of_lt Nat.and_le_left h1
      rw [← hm] at hmeven
      rw [hlen]
      refine ⟨hl0, hgw.symm, hceven, ?_⟩
      rw [← hgw]
      obtain ⟨ipb, maskb⟩ := net1
      simp only at hlen hm hceven hclt hmeven ⊢
      have hmlen : maskb.length = l := by rw [hm]; exact cidrMaskLoop_length l n
      rcases hl with rfl | rfl
      · obtain ⟨c0, c1, c2, c3, rfl⟩ := length_four _ hlen
        obtain ⟨m0, m1, m2, m3, rfl⟩ := length_four _ hmlen
        simp only [List.getD_cons_succ, List.getD_cons_zero, Nat.add_one_sub_one] at hceven hclt hmeven
        have := gateway_facts4 c0 c1 c2 c3 m0 m1 m2 m3 hclt hceven hmeven
        simpa using this
      · obtain ⟨c0, c1, c2, c3, c4, c5, c6, c7, c8, c9, c10, c11, c12, c13, c14, c15, rfl⟩ :=
          length_sixteen _ hlen
        obtain ⟨m0, m1, m2, m3, m4, m5, m6, m7, m8, m9, m10, m11, m12, m13, m14, m15, rfl⟩ :=
          length_sixteen _ hmlen
        simp only [List.getD_cons_succ, List.getD_cons_zero, Nat.add_one_sub_one] at hceven hclt hmeven
        have := gateway_facts16 c0 c1 c2 c3 c4 c5 c6 c7 c8 c9 c10 c11 c12 c13 c14 c15
          m0 m1 m2 m3 m4 m5 m6 m7 m8 m9 m10 m11 m12 m13 m14 m15 hclt hceven hmeven
        simpa using this

/-- C10: for every CIDR string that `calcDefaultGateway` accepts, the gateway is the
returned network's base address with the low-order bit of the last byte set; that bit
is clear in the base, so the gateway is numerically base + 1, differs from the base,
and is contained in the returned network. 127.168.128.0/18 gives 127.168.128.1 and
fe80:1234:1234:1234::/64 gives fe80:1234:1234:1234::1. -/
theorem calcDefaultGateway_first_host :
    (∀ (ParseAddr : String → Option Addr) (cidr : String) (gw : IP) (net : IPNet),
      calcDefaultGateway ParseAddr cidr = .ok (gw, net) →
      0 < net.IP.length ∧
      gw = net.IP.set (net.IP.length - 1) (net.IP.getD (net.IP.length - 1) 0 ||| 1) ∧
      net.IP.getD (net.IP.length - 1) 0 % 2 = 0 ∧
      ipToNat gw = ipToNat net.IP + 1 ∧ gw ≠ net.IP ∧ Contains net gw = true) ∧
    (∀ ParseAddr : String → Option Addr,
      ParseAddr "127.168.128.0" = some (.ip4 0x7FA88000) →
      calcDefaultGateway ParseAddr "127.168.128.0/18" =
        .ok ([127, 168, 128, 1], ⟨[127, 168, 128, 0], [255, 255, 192, 0]⟩)) ∧
    (∀ ParseAddr : String → Option Addr,
      ParseAddr "fe80:1234:1234:1234::" =
        some (.ip6 0xfe801234123412340000000000000000 "") →
      calcDefaultGateway ParseAddr "fe80:1234:1234:1234::/64" =
        .ok ([0xfe, 0x80, 0x12, 0x34, 0x12, 0x34, 0x12, 0x34, 0, 0, 0, 0, 0, 0, 0, 1],
          ⟨[0xfe, 0x80, 0x12, 0x34, 0x12, 0x34, 0x12, 0x34, 0, 0, 0, 0, 0, 0, 0, 0],
           [255, 255, 255, 255, 255, 255, 255, 255, 0, 0, 0, 0, 0, 0, 0, 0]⟩)) := by
  refine ⟨calcDefaultGateway_gateway, ?_, ?_⟩
  · intro P ha
    rw [calcDefaultGateway_v4_eval P "127.168.128.0/18" "127.168.128.0".toList "18".toList
      0x7FA88000 18 (by decide) ha (by decide) (by decide)]
    decide
  · intro P ha
    rw [calcDefaultGateway_v6_eval P "fe80:1234:1234:1234::/64"
      "fe80:1234:1234:1234::".toList "64".toList 0xfe801234123412340000000000000000 64
      (by decide) ha (by decide) (by decide)]
    decide

/-- C10 at 127.168.128.0/18, the IPv4 case of the tests. -/
theorem calcDefaultGateway_first_host_witness :
    calcDefaultGateway testParseAddr "127.168.128.0/18" =
      .ok ([127, 168, 128, 1], ⟨[127, 168, 128, 0], [255, 255, 192, 0]⟩) ∧
    ipToNat [127, 168, 128, 1] = ipToNat [127, 168, 128, 0] + 1 ∧
    ([127, 168, 128, 1] : IP) ≠ [127, 168, 128, 0] ∧
    Contains ⟨[127, 168, 128, 0], [255, 255, 192, 0]⟩ [127, 168, 128, 1] = true :=
  ⟨calcDefaultGateway_first_host.2.1 testParseAddr (by decide),
    (calcDefaultGateway_first_host.1 testParseAddr "127.168.128.0/18" _ _
      (calcDefaultGateway_first_host.2.1 testParseAddr (by decide))).2.2.2⟩

/-- C12: on every list of profiles whatsoever, every read `profileIDs[i-minID]` of the
scan is within the sorted slice: `FindFirstFreeID` does not panic and returns a
value. -/
theorem findFirstFreeID_total (profiles : List Profile) :
    ∃ r : Nat, FindFirstFreeID profiles = some r := by
  unfold FindFirstFreeID FindFirstFreeIDOfIDs
  simp only
  cases hlast : (sortSlice (getProfileIDs profiles)).getLast? with
  | none => exact ⟨2, rfl⟩
  | some maxID =>
    simp only
    have hpos : 0 < (sortSlice (getProfileIDs profiles)).length := by
      rcases Nat.eq_zero_or_pos (sortSlice (getProfileIDs profiles)).length with h | h
      · rw [List.length_eq_zero.mp h] at hlast; simp at hlast
      · exact h
    have hres := scanLoop_result (sortSlice (getProfileIDs profiles)) maxID hlast
      (toUint32 (maxID + 1)) (maxID - ((0 : Nat) + 2 : Int)).toNat 0 rfl hpos
      (by intro j hj; omega)
    have hzero : ((0 : Nat) : Int) + 2 = 2 := by norm_num
    rw [hzero] at hres
    rcases hres with ⟨hrun, _⟩ | ⟨m, v, _, _, _, _, _, hrun⟩
    · exact ⟨_, hrun⟩
    · exact ⟨_, hrun⟩

/-! ### Claims about `initWireguardConfig` -/

theorem calcDefaultGateway_no_panic (ParseAddr : String → Option Addr) (cidr : String) :
    calcDefaultGateway ParseAddr cidr ≠ .panic := by
  intro hp
  have h := (calcDefaultGateway_error_cases ParseAddr cidr).2
  by_cases he : ∃ e, calcDefaultGateway ParseAddr cidr = .err e
  · obtain ⟨e, he⟩ := he
    rw [hp] at he; cases he
  · obtain ⟨gw, net, hok⟩ := h he
    rw [hp] at hok; cases hok

/-- C11: `initWireguardConfig` returns an error exactly when `calcDefaultGateway` fails
for the IPv4 CIDR or for the IPv6 CIDR; then `wgConfig` is left as it was. Otherwise it
returns `nil` and `wgConfig` holds, for each family, the gateway and the network that
`calcDefaultGateway` returned for that family's CIDR. It never panics. -/
theorem initWireguardConfig_spec (ParseAddr : String → Option Addr)
    (networkIPv4 networkIPv6 : String) (wgConfig : Option wireguardConfig) :
    ((∃ e, (initWireguardConfig ParseAddr networkIPv4 networkIPv6 wgConfig).1 = .err e) ↔
      ((∃ e, calcDefaultGateway ParseAddr networkIPv4 = .err e) ∨
        (∃ e, calcDefaultGateway ParseAddr networkIPv6 = .err e))) ∧
    ((∃ e, (initWireguardConfig ParseAddr networkIPv4 networkIPv6 wgConfig).1 = .err e) →
      (initWireguardConfig ParseAddr networkIPv4 networkIPv6 wgConfig).2 = wgConfig) ∧
    ((¬ ∃ e, (initWireguardConfig ParseAddr networkIPv4 networkIPv6 wgConfig).1 = .err e) →
      ∃ g4 n4 g6 n6, calcDefaultGateway ParseAddr networkIPv4 = .ok (g4, n4) ∧
        calcDefaultGateway ParseAddr networkIPv6 = .ok (g6, n6) ∧
        initWireguardConfig ParseAddr networkIPv4 networkIPv6 wgConfig =
          (.ok (), some { gatewayIPv4 := g4, networkIPv4 := n4,
                          gatewayIPv6 := g6, networkIPv6 := n6 })) := by
  have np4 := calcDefaultGateway_no_panic ParseAddr networkIPv4
  have np6 := calcDefaultGateway_no_panic ParseAddr networkIPv6
  unfold initWireguardConfig
  cases h4 : calcDefaultGateway ParseAddr networkIPv4 with
  | panic => exact absurd h4 np4
  | err e4 =>
    simp only
    exact ⟨⟨fun _ => Or.inl ⟨e4, rfl⟩, fun _ => ⟨e4, rfl⟩⟩, fun _ => trivial,
      fun hno => absurd ⟨e4, rfl⟩ hno⟩
  | ok p4 =>
    obtain ⟨g4, n4⟩ := p4
    simp only
    cases h6 : calcDefaultGateway ParseAddr networkIPv6 with
    | panic => exact absurd h6 np6
    | err e6 =>
      simp only
      exact ⟨⟨fun _ => Or.inr ⟨e6, rfl⟩, fun _ => ⟨e6, rfl⟩⟩, fun _ => trivial,
        fun hno => absurd ⟨e6, rfl⟩ hno⟩
    | ok p6 =>
      obtain ⟨g6, n6⟩ := p6
      simp only
      refine ⟨⟨?_, ?_⟩, ?_, fun _ => ⟨g4, n4, g6, n6, rfl, rfl, rfl⟩⟩
      · rintro ⟨e, he⟩; cases he
      · rintro (⟨e, he⟩ | ⟨e, he⟩) <;> cases he
      · rintro ⟨e, he⟩; cases he

/-- C11 with the CIDRs of the tests: a rejected IPv4 /32 leaves `wgConfig` untouched. -/
theorem initWireguardConfig_spec_witness :
    (∃ e, (initWireguardConfig testParseAddr "127.168.128.0/32" "fe80:1234:1234:1234::/64"
      none).1 = .err e) ∧
    (initWireguardConfig testParseAddr "127.168.128.0/32" "fe80:1234:1234:1234::/64"
      none).2 = none :=
  have h : ∃ e, (initWireguardConfig testParseAddr "127.168.128.0/32"
      "fe80:1234:1234:1234::/64" none).1 = .err e :=
    (initWireguardConfig_spec testParseAddr "127.168.128.0/32" "fe80:1234:1234:1234::/64"
      none).1.mpr (Or.inl ⟨_, calcDefaultGateway_v4_eval testParseAddr "127.168.128.0/32"
        "127.168.128.0".toList "32".toList 0x7FA88000 32 (by decide) (by decide) (by decide)
        (by decide)⟩)
  ⟨h, (initWireguardConfig_spec testParseAddr "127.168.128.0/32" "fe80:1234:1234:1234::/64"
      none).2.1 h⟩

/-! ### Identifiers 0 and 1 -/

theorem calcDefaultGateway_bytes (ParseAddr : String → Option Addr) (cidr : String)
    (gw : IP) (net : IPNet) (h : calcDefaultGateway ParseAddr cidr = .ok (gw, net)) :
    isBytes net.IP := by
  cases hp : ParseCIDR ParseAddr cidr with
  | none =>
    rw [parseCIDR_none ParseAddr cidr hp] at h
    cases h
  | some p =>
    obtain ⟨ip, net1⟩ := p
    obtain ⟨l, n, src, hl, hn, hsrc, hbytes, hm, hip⟩ :=
      parseCIDR_shape ParseAddr cidr ip net1 hp
    have hlen : net1.IP.length = l := by rw [hip]; simp
    rw [calcDefaultGateway_of_parse ParseAddr cidr ip net1 l n hn hp hm hlen] at h
    by_cases hfull : n = 8 * l
    · rw [if_pos hfull] at h; cases h
    · rw [if_neg hfull] at h
      injection h with h
      injection h with _ hnet
      subst hnet
      intro b hb
      rw [hip] at hb
      simp only [List.mem_map, List.mem_range] at hb
      obtain ⟨i, hi, rfl⟩ := hb
      have h1 : src.getD i 0 < 256 := by
        have hmem : src.getD i 0 ∈ src := by
          rw [List.getD_eq_getElem?_getD, List.getElem?_eq_getElem (by omega)]
          simp
        exact hbytes _ hmem
      exact lt_of_le_of_lt Nat.and_le_left h1

/-- Two runs of the address loop over the same 4-byte and 16-byte bases: equal IPv4
results, or equal IPv6 results, come from equal ids. -/
theorem addrLoop_inj (v4Net v6Net : IPNet) (id1 id2 : Nat) (a4 a6 b4 b6 : IP)
    (h4 : v4Net.IP.length = 4) (h6 : v6Net.IP.length = 16)
    (hb4 : isBytes v4Net.IP) (hb6 : isBytes v6Net.IP)
    (hid1 : id1 < 2 ^ 32) (hid2 : id2 < 2 ^ 32)
    (l1 : addrLoop id1 ((v4Net.IP.length : Int) - 1) ((v6Net.IP.length : Int) - 2)
      v4Net.IP v6Net.IP = some (a4, a6))
    (l2 : addrLoop id2 ((v4Net.IP.length : Int) - 1) ((v6Net.IP.length : Int) - 2)
      v4Net.IP v6Net.IP = some (b4, b6)) :
    (a4 = b4 → id1 = id2) ∧ (a6 = b6 → id1 = id2) := by
  rw [addrLoop_closed_nets v4Net v6Net id1 hid1 h4 h6 hb4 hb6] at l1
  rw [addrLoop_closed_nets v4Net v6Net id2 hid2 h4 h6 hb4 hb6] at l2
  injection l1 with l1
  injection l2 with l2
  injection l1 with l1a l1b
  injection l2 with l2a l2b
  have m : ∀ x : Nat, x % 256 < 256 := fun x => Nat.mod_lt x (by norm_num)
  constructor
  · intro heq
    rw [← l1a, ← l2a] at heq
    simp only [List.cons.injEq, and_true] at heq
    obtain ⟨e3, e2, e1, e0⟩ := heq
    exact id_of_chunks id1 id2 hid1 hid2
      (chunk4_inj _ _ _ (m _) (m _) e0) (chunk4_inj _ _ _ (m _) (m _) e1)
      (chunk4_inj _ _ _ (m _) (m _) e2) (chunk4_inj _ _ _ (m _) (m _) e3)
  · intro heq
    rw [← l1b, ← l2b] at heq
    have heq := List.append_cancel_left heq
    simp only [List.cons.injEq, and_true] at heq
    obtain ⟨e3h, e3l, e2h, e2l, e1h, e1l, e0h, e0l⟩ := heq
    exact id_of_chunks id1 id2 hid1 hid2
      (chunk6_inj _ _ _ _ (m _) (m _) e0h e0l) (chunk6_inj _ _ _ _ (m _) (m _) e1h e1l)
      (chunk6_inj _ _ _ _ (m _) (m _) e2h e2l) (chunk6_inj _ _ _ _ (m _) (m _) e3h e3l)

theorem hexHi_one : hexHi 1 = 0 := by decide
theorem hexLo_one : hexLo 1 = 1 := by decide

/-- For id 1 the address loop, over the networks two accepted CIDRs gave, computes the
two gateways. -/
theorem addrLoop_one_gateways (ParseAddr : String → Option Addr) (cidr4 cidr6 : String)
    (gw4 gw6 : IP) (net4 net6 : IPNet)
    (hc4 : calcDefaultGateway ParseAddr cidr4 = .ok (gw4, net4))
    (hc6 : calcDefaultGateway ParseAddr cidr6 = .ok (gw6, net6))
    (h4 : net4.IP.length = 4) (h6 : net6.IP.length = 16) :
    addrLoop 1 ((net4.IP.length : Int) - 1) ((net6.IP.length : Int) - 2) net4.IP net6.IP =
      some (gw4, gw6) := by
  have hb4 := calcDefaultGateway_bytes ParseAddr cidr4 gw4 net4 hc4
  have hb6 := calcDefaultGateway_bytes ParseAddr cidr6 gw6 net6 hc6
  obtain ⟨_, hg4, he4, _⟩ := calcDefaultGateway_gateway ParseAddr cidr4 gw4 net4 hc4
  obtain ⟨_, hg6, he6, _⟩ := calcDefaultGateway_gateway ParseAddr cidr6 gw6 net6 hc6
  rw [addrLoop_closed_nets net4 net6 1 (by norm_num) h4 h6 hb4 hb6]
  rw [h4] at hg4 he4
  rw [h6] at hg6 he6
  obtain ⟨a0, a1, a2, a3, e4⟩ := length_four _ h4
  obtain ⟨c0, c1, c2, c3, c4, c5, c6, c7, c8, c9, c10, c11, c12, c13, c14, c15, e6⟩ :=
    length_sixteen _ h6
  rw [e4] at hb4 hg4 he4 ⊢
  rw [e6] at hb6 hg6 he6 ⊢
  simp only [isBytes, List.mem_cons, List.mem_singleton, forall_eq_or_imp, forall_eq,
    List.not_mem_nil, false_implies, implies_true, and_true] at hb4 hb6
  obtain ⟨b0, b1, b2, b3⟩ := hb4
  obtain ⟨_, _, _, _, _, _, _, _, d8, d9, d10, d11, d12, d13, d14, d15⟩ := hb6
  simp only [List.getD_cons_succ, List.getD_cons_zero] at he4 he6
  have o4 := byte_or_one a3 b3 he4
  have o6 := byte_or_one c15 d15 he6
  subst hg4; subst hg6
  norm_num [hexHi_zero, hexLo_zero, hexHi_one, hexLo_one, o4, o6]
  omega

/-- C13 as stated fails for id 0: with the accepted CIDRs 127.168.128.0/18 and
fe80:1234:1234:1234::/0 (network `::`), `generateIPAddr` does not map id 0 to the base
addresses; it returns `kErrIPLimitExceeds`, because `::` is the unspecified address. -/
theorem generateIPAddr_zero_rejected :
    calcDefaultGateway testParseAddr "127.168.128.0/18" =
      .ok ([127, 168, 128, 1], ⟨[127, 168, 128, 0], [255, 255, 192, 0]⟩) ∧
    calcDefaultGateway testParseAddr "fe80:1234:1234:1234::/0" =
      .ok ([0, 0, 0, 0, 0, 0, 0, 0, 0, 0, 0, 0, 0, 0, 0, 1],
        ⟨[0, 0, 0, 0, 0, 0, 0, 0, 0, 0, 0, 0, 0, 0, 0, 0],
         [0, 0, 0, 0, 0, 0, 0, 0, 0, 0, 0, 0, 0, 0, 0, 0]⟩) ∧
    generateIPAddr ⟨[127, 168, 128, 0], [255, 255, 192, 0]⟩
        ⟨[0, 0, 0, 0, 0, 0, 0, 0, 0, 0, 0, 0, 0, 0, 0, 0],
         [0, 0, 0, 0, 0, 0, 0, 0, 0, 0, 0, 0, 0, 0, 0, 0]⟩ 0 = .err .kErrIPLimitExceeds := by
  refine ⟨?_, ?_, ?_⟩
  · rw [calcDefaultGateway_v4_eval testParseAddr "127.168.128.0/18" "127.168.128.0".toList
      "18".toList 0x7FA88000 18 (by decide) (by decide) (by decide) (by decide)]
    decide
  · rw [calcDefaultGateway_v6_eval testParseAddr "fe80:1234:1234:1234::/0"
      "fe80:1234:1234:1234::".toList "0".toList 0xfe801234123412340000000000000000 0
      (by decide) (by decide) (by decide) (by decide)]
    decide
  · rw [generateIPAddr_of_loop _ _ 0 _ _ (addrLoop_zero _ _ _ _)]
    decide

/-- C13, amended: for an IPv4 CIDR and an IPv6 CIDR that `calcDefaultGateway` accepts
(4-byte and 16-byte networks), whenever `generateIPAddr` over the two returned networks
succeeds for id 0 it returns the two network base addresses, whenever it succeeds for
id 1 it returns the two gateways, and whenever it succeeds for a 32-bit id from 2 on
both addresses differ from the gateways and from the base addresses. The finder hands
out 2 first. -/
theorem generateIPAddr_reserved_ids (ParseAddr : String → Option Addr)
    (cidr4 cidr6 : String) (gw4 gw6 : IP) (net4 net6 : IPNet)
    (hc4 : calcDefaultGateway ParseAddr cidr4 = .ok (gw4, net4))
    (hc6 : calcDefaultGateway ParseAddr cidr6 = .ok (gw6, net6))
    (h4 : net4.IP.length = 4) (h6 : net6.IP.length = 16) :
    (∀ a4 a6, generateIPAddr net4 net6 0 = .ok (a4, a6) → a4 = net4.IP ∧ a6 = net6.IP) ∧
    (∀ a4 a6, generateIPAddr net4 net6 1 = .ok (a4, a6) → a4 = gw4 ∧ a6 = gw6) ∧
    (∀ id a4 a6, 2 ≤ id → id < 2 ^ 32 → generateIPAddr net4 net6 id = .ok (a4, a6) →
      a4 ≠ gw4 ∧ a6 ≠ gw6 ∧ a4 ≠ net4.IP ∧ a6 ≠ net6.IP) ∧
    FindFirstFreeID [] = some 2 := by
  have hb4 := calcDefaultGateway_bytes ParseAddr cidr4 gw4 net4 hc4
  have hb6 := calcDefaultGateway_bytes ParseAddr cidr6 gw6 net6 hc6
  have hone := addrLoop_one_gateways ParseAddr cidr4 cidr6 gw4 gw6 net4 net6 hc4 hc6 h4 h6
  have hzero := addrLoop_zero ((net4.IP.length : Int) - 1) ((net6.IP.length : Int) - 2)
    net4.IP net6.IP
  refine ⟨?_, ?_, ?_, ?_⟩
  · intro a4 a6 h
    have hl := ((generateIPAddr_ok_iff _ _ _ _ _).mp h).1
    rw [hzero] at hl
    injection hl with hl
    injection hl with e1 e2
    exact ⟨e1.symm, e2.symm⟩
  · intro a4 a6 h
    have hl := ((generateIPAddr_ok_iff _ _ _ _ _).mp h).1
    rw [hone] at hl
    injection hl with hl
    injection hl with e1 e2
    exact ⟨e1.symm, e2.symm⟩
  · intro id a4 a6 h2 hid h
    have hl := ((generateIPAddr_ok_iff _ _ _ _ _).mp h).1
    have i1 := addrLoop_inj net4 net6 id 1 a4 a6 gw4 gw6 h4 h6 hb4 hb6 hid (by norm_num)
      hl hone
    have i0 := addrLoop_inj net4 net6 id 0 a4 a6 net4.IP net6.IP h4 h6 hb4 hb6 hid
      (by norm_num) hl hzero
    refine ⟨fun e => ?_, fun e => ?_, fun e => ?_, fun e => ?_⟩
    · have := i1.1 e; omega
    · have := i1.2 e; omega
    · have := i0.1 e; omega
    · have := i0.2 e; omega
  · simp [FindFirstFreeID, getProfileIDs, FindFirstFreeIDOfIDs, sortSlice]

theorem generateIPAddr_example_gateway :
    generateIPAddr ⟨[127, 168, 128, 0], [255, 255, 192, 0]⟩
        ⟨[0xfe, 0x80, 0x12, 0x34, 0x12, 0x34, 0x12, 0x34, 0, 0, 0, 0, 0, 0, 0, 0],
         [255, 255, 255, 255, 255, 255, 255, 255, 0, 0, 0, 0, 0, 0, 0, 0]⟩ 1 =
      .ok ([127, 168, 128, 1],
        [0xfe, 0x80, 0x12, 0x34, 0x12, 0x34, 0x12, 0x34, 0, 0, 0, 0, 0, 0, 0, 1]) := by
  rw [generateIPAddr_ok_iff]
  refine ⟨?_, by decide, by decide, by decide, by decide⟩
  rw [addrLoop_closed_nets ⟨[127, 168, 128, 0], [255, 255, 192, 0]⟩
    ⟨[0xfe, 0x80, 0x12, 0x34, 0x12, 0x34, 0x12, 0x34, 0, 0, 0, 0, 0, 0, 0, 0],
     [255, 255, 255, 255, 255, 255, 255, 255, 0, 0, 0, 0, 0, 0, 0, 0]⟩
    1 (by norm_num) rfl rfl (by decide) (by decide)]
  decide

/-- C13 amended, at the CIDRs of the tests: id 1 succeeds and gets the two gateways. -/
theorem generateIPAddr_reserved_ids_witness :
    calcDefaultGateway testParseAddr "127.168.128.0/18" =
      .ok ([127, 168, 128, 1], ⟨[127, 168, 128, 0], [255, 255, 192, 0]⟩) ∧
    calcDefaultGateway testParseAddr "fe80:1234:1234:1234::/64" =
      .ok ([0xfe, 0x80, 0x12, 0x34, 0x12, 0x34, 0x12, 0x34, 0, 0, 0, 0, 0, 0, 0, 1],
        ⟨[0xfe, 0x80, 0x12, 0x34, 0x12, 0x34, 0x12, 0x34, 0, 0, 0, 0, 0, 0, 0, 0],
         [255, 255, 255, 255, 255, 255, 255, 255, 0, 0, 0, 0, 0, 0, 0, 0]⟩) ∧
    generateIPAddr ⟨[127, 168, 128, 0], [255, 255, 192, 0]⟩
        ⟨[0xfe, 0x80, 0x12, 0x34, 0x12, 0x34, 0x12, 0x34, 0, 0, 0, 0, 0, 0, 0, 0],
         [255, 255, 255, 255, 255, 255, 255, 255, 0, 0, 0, 0, 0, 0, 0, 0]⟩ 1 =
      .ok ([127, 168, 128, 1],
        [0xfe, 0x80, 0x12, 0x34, 0x12, 0x34, 0x12, 0x34, 0, 0, 0, 0, 0, 0, 0, 1]) ∧
    (∀ id a4 a6, 2 ≤ id → id < 2 ^ 32 →
      generateIPAddr ⟨[127, 168, 128, 0], [255, 255, 192, 0]⟩
        ⟨[0xfe, 0x80, 0x12, 0x34, 0x12, 0x34, 0x12, 0x34, 0, 0, 0, 0, 0, 0, 0, 0],
         [255, 255, 255, 255, 255, 255, 255, 255, 0, 0, 0, 0, 0, 0, 0, 0]⟩ id = .ok (a4, a6) →
      a4 ≠ [127, 168, 128, 1] ∧
      a6 ≠ [0xfe, 0x80, 0x12, 0x34, 0x12, 0x34, 0x12, 0x34, 0, 0, 0, 0, 0, 0, 0, 1] ∧
      a4 ≠ [127, 168, 128, 0] ∧
      a6 ≠ [0xfe, 0x80, 0x12, 0x34, 0x12, 0x34, 0x12, 0x34, 0, 0, 0, 0, 0, 0, 0, 0]) :=
  have e4 : calcDefaultGateway testParseAddr "127.168.128.0/18" =
      .ok ([127, 168, 128, 1], ⟨[127, 168, 128, 0], [255, 255, 192, 0]⟩) := by
    rw [calcDefaultGateway_v4_eval testParseAddr "127.168.128.0/18" "127.168.128.0".toList
      "18".toList 0x7FA88000 18 (by decide) (by decide) (by decide) (by decide)]
    decide
  have e6 : calcDefaultGateway testParseAddr "fe80:1234:1234:1234::/64" =
      .ok ([0xfe, 0x80, 0x12, 0x34, 0x12, 0x34, 0x12, 0x34, 0, 0, 0, 0, 0, 0, 0, 1],
        ⟨[0xfe, 0x80, 0x12, 0x34, 0x12, 0x34, 0x12, 0x34, 0, 0, 0, 0, 0, 0, 0, 0],
         [255, 255, 255, 255, 255, 255, 255, 255, 0, 0, 0, 0, 0, 0, 0, 0]⟩) := by
    rw [calcDefaultGateway_v6_eval testParseAddr "fe80:1234:1234:1234::/64"
      "fe80:1234:1234:1234::".toList "64".toList 0xfe801234123412340000000000000000 64
      (by decide) (by decide) (by decide) (by decide)]
    decide
  ⟨e4, e6, generateIPAddr_example_gateway,
    (generateIPAddr_reserved_ids testParseAddr "127.168.128.0/18" "fe80:1234:1234:1234::/64"
      _ _ _ _ e4 e6 rfl rfl).2.2.1⟩

end Subspace
